import Mathlib

/-!
# Verification of the need-scanner scan orchestration and ranking engine

Shallow embedding, in Lean 4, of the job queue, cache resolver, similarity
penalizer, MMR reranker and priority scorer of the `need_scanner` repository,
together with proofs of the specified properties.

Conventions of the embedding:
- The PostgreSQL `runs` table is a `List Run` kept in `created_at` ascending
  order (`enqueue_run` appends rows with the current timestamp, so list order
  is creation order); `ORDER BY created_at ASC LIMIT 1` therefore selects the
  first matching list element.
- Timestamps are abstract `Nat` ticks (`datetime.now()` becomes an explicit
  `now` parameter).
- Python floats of the ranking maths are embedded as `ℚ`; numpy array
  operations become `List` operations.
- Each database transaction is one atomic step: `claim_next_job` runs inside
  one transaction whose `SELECT ... FOR UPDATE SKIP LOCKED` makes the whole
  claim atomic with respect to other workers, so a set of concurrent calls is
  modelled as a sequence of atomic calls in some order.
-/

/-! ## Job queue model (src/need_scanner/db.py)

The status strings `JOB_STATUS_QUEUED`, `JOB_STATUS_RUNNING`,
`JOB_STATUS_COMPLETED`, `JOB_STATUS_FAILED` of `database/models.py`. -/

inductive JobStatus where
  | queued
  | running
  | completed
  | failed
deriving DecidableEq

/-- One row of the `runs` table, restricted to the columns read or written by
the verified operations (`claim_next_job`, `update_job_progress`,
`complete_job`, `fail_job`, `get_job_status`, the caching resolution).
The configuration columns (`mode`, `run_mode`, `max_insights`,
`input_pattern`, `config_name`, `user_id`, `cache_key`), the float cost
columns and the `run_stats` JSON are not inspected by any verified property
and are omitted. -/
structure Run where
  id : String
  createdAt : Nat
  status : JobStatus
  progress : Int
  startedAt : Option Nat
  completedAt : Option Nat
  errorMessage : Option String
  nbInsights : Option Nat
  nbClusters : Option Nat
  isCachedResult : Bool
  sourceRunId : Option String
  csvPath : Option String
  jsonPath : Option String
  notes : Option String
deriving DecidableEq

/-- The `runs` table, in `created_at` ascending order. -/
def Store := List Run

instance : DecidableEq Store := inferInstanceAs (DecidableEq (List Run))

/-- `db.query(Run).filter(Run.id == run_id).first()`. -/
def findRunById (s : Store) (run_id : String) : Option Run :=
  s.find? (fun r => r.id == run_id)

/-- SQLAlchemy's in-place mutation of the row found by
`filter(Run.id == run_id).first()`: the first row with this id is replaced. -/
def replaceFirstById : Store → String → Run → Store
  | [], _, _ => []
  | r :: rs, run_id, r' =>
    if r.id == run_id then r' :: rs else r :: replaceFirstById rs run_id r'

/-- The claim pool predicate of `claim_next_job`'s SQL:
`status = 'queued' AND is_cached_result = false`. -/
def isQueuedCanonical (r : Run) : Bool :=
  decide (r.status = JobStatus.queued ∧ r.isCachedResult = false)

/-- `claim_next_job` (db.py): one atomic claim transaction. The SQL
`SELECT id FROM runs WHERE status='queued' AND is_cached_result=false
ORDER BY created_at ASC LIMIT 1 FOR UPDATE SKIP LOCKED` picks the first
queued canonical row of the store; the row is then re-fetched by id and set
to `running` with `started_at = now` and `progress = 0`. -/
def claim_next_job (now : Nat) (s : Store) : Option Run × Store :=
  match s.find? isQueuedCanonical with
  | none => (none, s)
  | some row =>
    match findRunById s row.id with
    | none => (none, s)
    | some run =>
      let run' := { run with
        status := JobStatus.running, startedAt := some now, progress := 0 }
      (some run', replaceFirstById s run.id run')

/-- `update_job_progress` (db.py): clamp to `[0, 100]`, then update the row
only when its status is `running`; a missing row is silently ignored. -/
def update_job_progress (run_id : String) (progress : Int) (s : Store) : Store :=
  let progress := max 0 (min 100 progress)
  match findRunById s run_id with
  | some run =>
    if run.status = JobStatus.running then
      replaceFirstById s run_id { run with progress := progress }
    else s
  | none => s

/-- `complete_job` (db.py): unconditionally mark the row found by id as
completed and store the results; a missing row is silently ignored.
The float cost arguments and `run_stats` are omitted (see `Run`). -/
def complete_job (run_id : String) (nb_insights nb_clusters : Nat)
    (csv_path json_path notes : Option String) (now : Nat) (s : Store) : Store :=
  match findRunById s run_id with
  | some run =>
    replaceFirstById s run_id { run with
      status := JobStatus.completed
      completedAt := some now
      progress := 100
      nbInsights := some nb_insights
      nbClusters := some nb_clusters
      csvPath := csv_path
      jsonPath := json_path
      notes := notes }
  | none => s

/-- The truncation at the top of `fail_job`:
`if len(error_message) > 2000: error_message = error_message[:1997] + "..."`. -/
def truncateErrorMessage (error_message : String) : String :=
  if error_message.length > 2000 then
    String.mk (error_message.data.take 1997) ++ "..."
  else error_message

/-- `fail_job` (db.py): truncate the message, then unconditionally mark the
row found by id as failed; a missing row is silently ignored. -/
def fail_job (run_id : String) (error_message : String) (now : Nat) (s : Store) : Store :=
  let error_message := truncateErrorMessage error_message
  match findRunById s run_id with
  | some run =>
    replaceFirstById s run_id { run with
      status := JobStatus.failed
      completedAt := some now
      errorMessage := some error_message }
  | none => s

/-- The polling view returned by `get_job_status` (the `mode`, `run_mode`
and `max_insights` echo columns are omitted, see `Run`). -/
structure JobStatusView where
  run_id : String
  status : JobStatus
  progress : Int
  created_at : Nat
  started_at : Option Nat
  completed_at : Option Nat
  error_message : Option String
  nb_insights : Option Nat
  nb_clusters : Option Nat
  is_cached_result : Bool
  source_run_id : Option String
deriving DecidableEq

/-- The view built from a row's own columns (the point-in-time snapshot for a
cached row). -/
def snapshotView (run : Run) : JobStatusView :=
  { run_id := run.id
    status := run.status
    progress := run.progress
    created_at := run.createdAt
    started_at := run.startedAt
    completed_at := run.completedAt
    error_message := run.errorMessage
    nb_insights := run.nbInsights
    nb_clusters := run.nbClusters
    is_cached_result := run.isCachedResult
    source_run_id := run.sourceRunId }

/-- `get_job_status` (db.py): for a cached row with a `source_run_id`, the
status, progress, timestamps, error message and result counts are re-read
from the source (canonical) row when it exists; when the source row does not
exist, the row's own stored fields are returned. -/
def get_job_status (s : Store) (run_id : String) : Option JobStatusView :=
  match findRunById s run_id with
  | none => none
  | some run =>
    match run.isCachedResult, run.sourceRunId with
    | true, some sid =>
      match findRunById s sid with
      | some source_run =>
        some { snapshotView run with
          status := source_run.status
          progress := source_run.progress
          started_at := source_run.startedAt
          completed_at := source_run.completedAt
          error_message := source_run.errorMessage
          nb_insights := source_run.nbInsights
          nb_clusters := source_run.nbClusters }
      | none => some (snapshotView run)
    | _, _ => some (snapshotView run)

/-- `get_effective_run_id_for_insights` (services/cache.py). -/
def get_effective_run_id_for_insights (run : Run) : String :=
  match run.isCachedResult, run.sourceRunId with
  | true, some sid => sid
  | _, _ => run.id

/-- Outcome of the cached-run handling at the top of
`get_run_insights_endpoint` (api.py). -/
inductive InsightsResolution where
  | notFound
  | internalError
  | emptyWhileRunning
  | fromRun (effective_run_id : String)
deriving DecidableEq

/-- The cached-run handling of `get_run_insights_endpoint` (api.py):
404 when the run does not exist; for a cached run, an empty response while
the canonical run is not yet completed, and HTTP 500 (`Internal error:
source run not found`) when the canonical row has vanished; otherwise the
insights are read from the effective run id. -/
def resolve_run_insights (s : Store) (run_id : String) : InsightsResolution :=
  match findRunById s run_id with
  | none => InsightsResolution.notFound
  | some run =>
    let effective := get_effective_run_id_for_insights run
    match run.isCachedResult, run.sourceRunId with
    | true, some sid =>
      match findRunById s sid with
      | some source_run =>
        if source_run.status ≠ JobStatus.completed then
          InsightsResolution.emptyWhileRunning
        else InsightsResolution.fromRun effective
      | none => InsightsResolution.internalError
    | _, _ => InsightsResolution.fromRun effective

/-! ## Similarity penalizer (src/need_scanner/processing/history.py)

`compute_detailed_similarity`, `compute_similarity_penalty` and
`apply_penalty_to_scores` are numpy-vectorised; the cosine-similarity matrix
is produced by the external `sklearn` library, and the functions only consume
the per-candidate maximum similarity `max_sim = max(similarities[i])`.
The embedding takes these per-candidate maxima as input lists and models the
vectorised arithmetic pointwise over `ℚ`. -/

/-- Pointwise form of `compute_similarity_penalty`:
`penalties = alpha * np.maximum(0.0, max_similarities - tau)`. -/
def similarityPenalty (sim_max tau alpha : ℚ) : ℚ :=
  alpha * max 0 (sim_max - tau)

/-- `compute_similarity_penalty` over the vector of per-candidate maximum
similarities. -/
def compute_similarity_penalty (max_similarities : List ℚ) (tau alpha : ℚ) : List ℚ :=
  max_similarities.map (fun sim_max => similarityPenalty sim_max tau alpha)

/-- Pointwise form of `apply_penalty_to_scores`:
`adjusted_scores = priority_scores * (1 - penalties)`. -/
def adjustedScore (score sim_max tau alpha : ℚ) : ℚ :=
  score * (1 - similarityPenalty sim_max tau alpha)

/-- `apply_penalty_to_scores`: elementwise `priority_scores * (1 - penalties)`. -/
def apply_penalty_to_scores (priority_scores max_similarities : List ℚ)
    (tau alpha : ℚ) : List ℚ :=
  List.zipWith (fun score penalty => score * (1 - penalty))
    priority_scores (compute_similarity_penalty max_similarities tau alpha)

/-- One element of the result of `compute_detailed_similarity`
(the `SimilarityResult` dataclass of history.py). -/
structure SimilarityResult where
  max_similarity : ℚ
  most_similar_id : Option String
  is_duplicate : Bool
  is_recurring : Bool
deriving DecidableEq

/-- The per-candidate classification of `compute_detailed_similarity`:
`is_exact_duplicate = max_sim >= exact_dup_threshold` and
`is_recurring = (max_sim >= tau) and not is_exact_duplicate`. -/
def classifySimilarity (max_sim : ℚ) (most_similar_id : Option String)
    (tau exact_dup_threshold : ℚ) : SimilarityResult :=
  let is_exact_duplicate := decide (exact_dup_threshold ≤ max_sim)
  let is_recurring := decide (tau ≤ max_sim) && !is_exact_duplicate
  { max_similarity := max_sim
    most_similar_id := most_similar_id
    is_duplicate := is_exact_duplicate
    is_recurring := is_recurring }

/-- `compute_detailed_similarity` over the list of per-candidate
`(max similarity, id of the most similar history entry)` pairs. -/
def compute_detailed_similarity (max_sims : List (ℚ × Option String))
    (tau exact_dup_threshold : ℚ) : List SimilarityResult :=
  max_sims.map (fun p => classifySimilarity p.1 p.2 tau exact_dup_threshold)

/-! ## MMR reranking (src/need_scanner/processing/mmr.py)

Embeddings only enter `compute_mmr_scores` through the external
`cosine_similarity` call; the embedding abstracts that matrix as a function
`sim : Nat → Nat → ℚ` over candidate indices. `np.argmax` returns the first
index attaining the maximum, and setting already-selected indices to `-inf`
is modelled with `WithBot ℚ` (`⊥` is `-inf`). -/

/-- `np.min` of a non-empty list (`0` on the empty list, on which numpy
raises). -/
def listMin : List ℚ → ℚ
  | [] => 0
  | x :: xs => xs.foldl min x

/-- `np.max` of a non-empty list (`0` on the empty list, on which numpy
raises). -/
def listMax : List ℚ → ℚ
  | [] => 0
  | x :: xs => xs.foldl max x

/-- `normalize_scores` (mmr.py): min-max normalisation to `[0, 1]`, all ones
when every score is equal. -/
def normalize_scores (scores : List ℚ) : List ℚ :=
  let min_score := listMin scores
  let max_score := listMax scores
  if max_score = min_score then scores.map (fun _ => 1)
  else scores.map (fun s => (s - min_score) / (max_score - min_score))

/-- `foldl max`, the running maximum (`np.max` over `x :: xs`). -/
def maxOf {α : Type} [LinearOrder α] (x : α) (xs : List α) : α :=
  xs.foldl max x

/-- `np.argmax`: the first index attaining the maximum of the list, `0` on
the empty list (numpy raises there). -/
def argmaxIdx {α : Type} [LinearOrder α] : List α → Nat
  | [] => 0
  | [_] => 0
  | x :: y :: ys => if x < maxOf y ys then argmaxIdx (y :: ys) + 1 else 0

/-- `compute_mmr_scores` (mmr.py). `sim i j` is the entry of the external
`cosine_similarity` matrix for candidates `i` and `j`; with an empty
selection the normalised scores are returned as-is, otherwise
`lambda_param * normalized_scores - (1 - lambda_param) * max_similarities`
with already-selected indices set to `-inf` (`⊥`). -/
def compute_mmr_scores (priority_scores : List ℚ) (sim : Nat → Nat → ℚ)
    (selected_indices : List Nat) (lambda_param : ℚ) : List (WithBot ℚ) :=
  let normalized_scores := normalize_scores priority_scores
  match selected_indices with
  | [] => normalized_scores.map (fun q : ℚ => (q : WithBot ℚ))
  | s0 :: rest =>
    (List.range normalized_scores.length).map (fun i =>
      if i ∈ selected_indices then (⊥ : WithBot ℚ)
      else ((lambda_param * normalized_scores.getD i 0
        - (1 - lambda_param) * maxOf (sim i s0) (rest.map (sim i)) : ℚ) : WithBot ℚ))

/-- The selection loop of `mmr_rerank` (mmr.py): `top_k` iterations, each
computing the MMR scores for the current selection, taking `np.argmax` and
appending it to the selection. -/
def mmrSelectLoop (priority_scores : List ℚ) (sim : Nat → Nat → ℚ)
    (lambda_param : ℚ) : Nat → List Nat → List Nat
  | 0, selected_indices => selected_indices
  | k + 1, selected_indices =>
    let mmr_scores := compute_mmr_scores priority_scores sim selected_indices lambda_param
    let best_idx := argmaxIdx mmr_scores
    mmrSelectLoop priority_scores sim lambda_param k (selected_indices ++ [best_idx])

/-- `mmr_rerank` (mmr.py), restricted to the selected indices (the returned
items are `items[i]` for the selected `i`, in selection order):
`top_k = min(top_k, n_items)` followed by the greedy loop. -/
def mmr_rerank_indices (priority_scores : List ℚ) (sim : Nat → Nat → ℚ)
    (top_k : Nat) (lambda_param : ℚ) : List Nat :=
  mmrSelectLoop priority_scores sim lambda_param
    (min top_k priority_scores.length) []

/-! ## Priority scorer (src/need_scanner/analysis/priority.py) -/

/-- Python's `round(x, 2)`, embedded over `ℚ` as rounding to the nearest
multiple of `1/100` (Mathlib's `round` rounds half away from zero upward
while Python rounds half to even; the verified properties never depend on
the tie case). -/
def round2 (x : ℚ) : ℚ :=
  ((round (x * 100) : ℤ) : ℚ) / 100

/-- `calculate_priority_score` (priority.py): combined pain
`pain_score_llm * 0.7 + heuristic_score * 0.3`, weight total defaulting to
`1.0` when the configured weights sum to zero, weighted combination, then
`round(min(priority, 10.0), 2)`. -/
def calculate_priority_score
    (pain_score_llm heuristic_score traction_score novelty_score
      wtp_score trend_score : ℚ)
    (pain_weight traction_weight novelty_weight wtp_weight trend_weight : ℚ) : ℚ :=
  let combined_pain := pain_score_llm * (7/10) + heuristic_score * (3/10)
  let total_weight0 :=
    pain_weight + traction_weight + novelty_weight + wtp_weight + trend_weight
  let total_weight := if total_weight0 = 0 then 1 else total_weight0
  let priority :=
    combined_pain * (pain_weight / total_weight) +
    traction_score * (traction_weight / total_weight) +
    novelty_score * (novelty_weight / total_weight) +
    wtp_score * (wtp_weight / total_weight) +
    trend_score * (trend_weight / total_weight)
  round2 (min priority 10)

/-! ## Cache key (src/need_scanner/services/cache.py)

`build_cache_key` serialises the signature dict
`dict(date, input_pattern, max_insights, mode, run_mode)` with
`json.dumps(signature, sort_keys=True, separators=(",", ":"))` (keys are
already listed here in sorted order, `ensure_ascii` defaults to true) and
hashes the UTF-8 bytes with SHA-256, returning the 64-character lowercase
hex digest. The embedding reproduces the serialised string, UTF-8 encoding
and SHA-256 exactly. -/

/-- Lowercase hexadecimal digit, as produced by Python's `%x` formatting and
`hashlib`'s `hexdigest`. -/
def hexDigitChar (n : Nat) : Char :=
  if n < 10 then Char.ofNat (48 + n) else Char.ofNat (87 + n)

/-- Value of a lowercase hexadecimal digit. -/
def hexVal (c : Char) : Option Nat :=
  if '0' ≤ c ∧ c ≤ '9' then some (c.toNat - 48)
  else if 'a' ≤ c ∧ c ≤ 'f' then some (c.toNat - 87)
  else none

/-- Four-digit lowercase hex rendering, as in Python's `'\\u%04x'`. -/
def toHex4 (n : Nat) : List Char :=
  [hexDigitChar (n / 4096 % 16), hexDigitChar (n / 256 % 16),
   hexDigitChar (n / 16 % 16), hexDigitChar (n % 16)]

/-- `json.dumps` escaping of one character (`ensure_ascii=True`, the
default used by `cache.py`): the two-character escapes of `ESCAPE_DCT`,
`\\uXXXX` for the remaining characters outside the printable ASCII range
`0x20..0x7e` (with a UTF-16 surrogate pair for astral characters), and the
character itself otherwise. -/
def jsonEscChar (c : Char) : List Char :=
  if c = '\\' then ['\\', '\\']
  else if c = '"' then ['\\', '"']
  else if c = '\x08' then ['\\', 'b']
  else if c = '\x0c' then ['\\', 'f']
  else if c = '\n' then ['\\', 'n']
  else if c = '\r' then ['\\', 'r']
  else if c = '\t' then ['\\', 't']
  else if c.toNat < 32 ∨ 126 < c.toNat then
    if c.toNat < 65536 then '\\' :: 'u' :: toHex4 c.toNat
    else
      let v := c.toNat - 65536
      ('\\' :: 'u' :: toHex4 (55296 + v / 1024)) ++
        ('\\' :: 'u' :: toHex4 (56320 + v % 1024))
  else [c]

/-- `json.dumps` escaping of a string body. -/
def jsonEscape (s : List Char) : List Char :=
  (s.map jsonEscChar).flatten

/-- Inverse of the two-character escapes of `jsonEscChar`. -/
def jsonShortUnescChar (c : Char) : Option Char :=
  if c = '\\' then some '\\'
  else if c = '"' then some '"'
  else if c = 'b' then some '\x08'
  else if c = 'f' then some '\x0c'
  else if c = 'n' then some '\n'
  else if c = 'r' then some '\r'
  else if c = 't' then some '\t'
  else none

/-- Reads four hex digits. -/
def parseHex4 (a b c d : Char) : Option Nat :=
  match hexVal a, hexVal b, hexVal c, hexVal d with
  | some ha, some hb, some hc, some hd =>
    some (((ha * 16 + hb) * 16 + hc) * 16 + hd)
  | _, _, _, _ => none

/-! Decoder for `jsonEscape`, used only to prove the escaping injective
(`jsonUnescape_jsonEscape` below): a left inverse of `jsonEscape`.
`jsonUnescapeEsc` decodes what follows a backslash, `jsonUnescapeHex` a
`uXXXX` sequence, and `jsonUnescapeLow` the expected low half of a UTF-16
surrogate pair. -/

mutual

def jsonUnescape : List Char → Option (List Char)
  | [] => some []
  | c :: rest =>
    if c = '\\' then jsonUnescapeEsc rest
    else (jsonUnescape rest).map (fun t => c :: t)
  termination_by l => l.length

def jsonUnescapeEsc : List Char → Option (List Char)
  | [] => none
  | e :: rest1 =>
    if e = 'u' then jsonUnescapeHex rest1
    else
      match jsonShortUnescChar e with
      | some ch => (jsonUnescape rest1).map (fun t => ch :: t)
      | none => none
  termination_by l => l.length

def jsonUnescapeHex : List Char → Option (List Char)
  | a :: b :: c :: d :: rest2 =>
    match parseHex4 a b c d with
    | some n =>
      if 55296 ≤ n ∧ n < 56320 then jsonUnescapeLow n rest2
      else (jsonUnescape rest2).map (fun t => Char.ofNat n :: t)
    | none => none
  | _ => none
  termination_by l => l.length

def jsonUnescapeLow (n : Nat) : List Char → Option (List Char)
  | b2 :: u2 :: e2 :: f2 :: g2 :: k2 :: rest3 =>
    if b2 = '\\' ∧ u2 = 'u' then
      match parseHex4 e2 f2 g2 k2 with
      | some m =>
        if 56320 ≤ m ∧ m < 57344 then
          (jsonUnescape rest3).map (fun t =>
            Char.ofNat (65536 + (n - 55296) * 1024 + (m - 56320)) :: t)
        else none
      | none => none
    else none
  | _ => none
  termination_by l => l.length

end

/-- Decimal digit character. -/
def digitChar (d : Nat) : Char := Char.ofNat (48 + d)

/-- Decimal rendering of a natural number, as `json.dumps` renders a
non-negative Python `int`. -/
def natDecimal (n : Nat) : List Char :=
  if n = 0 then ['0'] else (Nat.digits 10 n).reverse.map digitChar

/-- JSON rendering of the `max_insights` value: `null` for `None`, decimal
digits for an int (the API validates `max_insights` as `None` or an int in
`1..100`). -/
def renderMaxInsights : Option Nat → List Char
  | none => "null".data
  | some n => natDecimal n

/-- A UTC calendar date, as produced by `datetime.now(timezone.utc).date()`
(`datetime.date` guarantees `1 ≤ year ≤ 9999`, `1 ≤ month ≤ 12`,
`1 ≤ day ≤ 31`). -/
structure SigDate where
  year : Nat
  month : Nat
  day : Nat
deriving DecidableEq

/-- Two-digit zero-padded decimal (`%02d` for values below 100). -/
def pad2 (n : Nat) : List Char := [digitChar (n / 10 % 10), digitChar (n % 10)]

/-- Four-digit zero-padded decimal (`%04d` for values below 10000). -/
def pad4 (n : Nat) : List Char :=
  [digitChar (n / 1000 % 10), digitChar (n / 100 % 10),
   digitChar (n / 10 % 10), digitChar (n % 10)]

/-- `date.isoformat()`: `YYYY-MM-DD`, faithful on the ranges `datetime.date`
guarantees. -/
def isoDate (d : SigDate) : List Char :=
  pad4 d.year ++ '-' :: (pad2 d.month ++ '-' :: pad2 d.day)

/-- The serialised signature of `build_cache_key`:
`json.dumps(signature, sort_keys=True, separators=(",", ":"))` for the dict
with keys `date`, `input_pattern`, `max_insights`, `mode`, `run_mode`
(already in sorted key order). -/
def cacheSignature (mode run_mode : List Char) (max_insights : Option Nat)
    (input_pattern : List Char) (d : SigDate) : List Char :=
  "\x7b\"date\":\"".data ++ jsonEscape (isoDate d) ++
    "\",\"input_pattern\":\"".data ++ jsonEscape input_pattern ++
    "\",\"max_insights\":".data ++ renderMaxInsights max_insights ++
    ",\"mode\":\"".data ++ jsonEscape mode ++
    "\",\"run_mode\":\"".data ++ jsonEscape run_mode ++
    "\"\x7d".data

/-- UTF-8 encoding of one Unicode scalar value (`str.encode("utf-8")`). -/
def utf8EncodeChar (c : Char) : List Nat :=
  let v := c.toNat
  if v < 128 then [v]
  else if v < 2048 then [192 + v / 64, 128 + v % 64]
  else if v < 65536 then [224 + v / 4096, 128 + v / 64 % 64, 128 + v % 64]
  else [240 + v / 262144, 128 + v / 4096 % 64, 128 + v / 64 % 64, 128 + v % 64]

/-- UTF-8 encoding of a string, as a byte list. -/
def utf8Encode (s : List Char) : List Nat :=
  (s.map utf8EncodeChar).flatten

/-! SHA-256 (`hashlib.sha256`), on byte lists, 32-bit words as `Nat % 2^32`. -/

/-- Truncation to a 32-bit word. -/
def w32 (n : Nat) : Nat := n % 4294967296

/-- 32-bit right rotation. -/
def rotr32 (n x : Nat) : Nat := w32 ((x >>> n) ||| (x <<< (32 - n)))

/-- SHA-256 `Ch`. -/
def sha256Ch (x y z : Nat) : Nat := (x &&& y) ^^^ ((4294967295 ^^^ x) &&& z)

/-- SHA-256 `Maj`. -/
def sha256Maj (x y z : Nat) : Nat := (x &&& y) ^^^ (x &&& z) ^^^ (y &&& z)

/-- SHA-256 `Σ0`. -/
def sha256BSig0 (x : Nat) : Nat := rotr32 2 x ^^^ rotr32 13 x ^^^ rotr32 22 x

/-- SHA-256 `Σ1`. -/
def sha256BSig1 (x : Nat) : Nat := rotr32 6 x ^^^ rotr32 11 x ^^^ rotr32 25 x

/-- SHA-256 `σ0`. -/
def sha256SSig0 (x : Nat) : Nat := rotr32 7 x ^^^ rotr32 18 x ^^^ (x >>> 3)

/-- SHA-256 `σ1`. -/
def sha256SSig1 (x : Nat) : Nat := rotr32 17 x ^^^ rotr32 19 x ^^^ (x >>> 10)

/-- The 64 SHA-256 round constants of FIPS 180-4, in decimal. -/
def sha256K : List Nat :=
  [1116352408, 1899447441, 3049323471, 3921009573, 961987163,
   1508970993, 2453635748, 2870763221, 3624381080, 310598401,
   607225278, 1426881987, 1925078388, 2162078206, 2614888103,
   3248222580, 3835390401, 4022224774, 264347078, 604807628,
   770255983, 1249150122, 1555081692, 1996064986, 2554220882,
   2821834349, 2952996808, 3210313671, 3336571891, 3584528711,
   113926993, 338241895, 666307205, 773529912, 1294757372,
   1396182291, 1695183700, 1986661051, 2177026350, 2456956037,
   2730485921, 2820302411, 3259730800, 3345764771, 3516065817,
   3600352804, 4094571909, 275423344, 430227734, 506948616,
   659060556, 883997877, 958139571, 1322822218, 1537002063,
   1747873779, 1955562222, 2024104815, 2227730452, 2361852424,
   2428436474, 2756734187, 3204031479, 3329325298]

/-- The SHA-256 initial hash value of FIPS 180-4, in decimal. -/
def sha256InitH : List Nat :=
  [1779033703, 3144134277, 1013904242, 2773480762,
   1359893119, 2600822924, 528734635, 1541459225]

/-- Big-endian byte rendering of `n` on `k` bytes. -/
def natToBytesBE (k n : Nat) : List Nat :=
  (List.range k).map (fun i => n / 256 ^ (k - 1 - i) % 256)

/-- Number of zero bytes of SHA-256 padding for a message of `len` bytes. -/
def sha256PadZeros (len : Nat) : Nat := (119 - len % 64) % 64

/-- SHA-256 padding: `0x80`, zeros to 56 mod 64, then the bit length on
8 bytes big-endian. -/
def sha256Pad (msg : List Nat) : List Nat :=
  msg ++ 0x80 :: (List.replicate (sha256PadZeros msg.length) 0 ++
    natToBytesBE 8 (msg.length * 8))

/-- Big-endian 32-bit words from a byte list. -/
def bytesToWords : List Nat → List Nat
  | a :: b :: c :: d :: rest =>
    (((a * 256 + b) * 256 + c) * 256 + d) :: bytesToWords rest
  | _ => []

/-- 64-byte blocks of a byte list. -/
def chunk64 : List Nat → List (List Nat)
  | [] => []
  | a :: rest => (a :: rest.take 63) :: chunk64 (rest.drop 63)
  termination_by l => l.length
  decreasing_by simp; omega

/-- SHA-256 message schedule: extend 16 words to 64. -/
def sha256Schedule (w : List Nat) : List Nat :=
  (List.range 48).foldl
    (fun ws _ =>
      let i := ws.length
      ws ++ [w32 (sha256SSig1 (ws.getD (i - 2) 0) + ws.getD (i - 7) 0 +
        sha256SSig0 (ws.getD (i - 15) 0) + ws.getD (i - 16) 0)])
    w

/-- One SHA-256 round on the state `[a,b,c,d,e,f,g,h]`. -/
def sha256Round (w : List Nat) (st : List Nat) (i : Nat) : List Nat :=
  let t1 := w32 (st.getD 7 0 + sha256BSig1 (st.getD 4 0) +
    sha256Ch (st.getD 4 0) (st.getD 5 0) (st.getD 6 0) +
    sha256K.getD i 0 + w.getD i 0)
  let t2 := w32 (sha256BSig0 (st.getD 0 0) +
    sha256Maj (st.getD 0 0) (st.getD 1 0) (st.getD 2 0))
  [w32 (t1 + t2), st.getD 0 0, st.getD 1 0, st.getD 2 0,
   w32 (st.getD 3 0 + t1), st.getD 4 0, st.getD 5 0, st.getD 6 0]

/-- SHA-256 compression of one 64-byte block into the hash state. -/
def sha256Compress (h : List Nat) (block : List Nat) : List Nat :=
  let w := sha256Schedule (bytesToWords block)
  let final := (List.range 64).foldl (sha256Round w) h
  List.zipWith (fun x y => w32 (x + y)) h final

/-- SHA-256 digest (32 bytes) of a byte list. -/
def sha256 (msg : List Nat) : List Nat :=
  let hFinal := (chunk64 (sha256Pad msg)).foldl sha256Compress sha256InitH
  (hFinal.map (natToBytesBE 4)).flatten

/-- Lowercase hex rendering of one byte. -/
def byteToHex (b : Nat) : List Char := [hexDigitChar (b / 16 % 16), hexDigitChar (b % 16)]

/-- `hexdigest()`: lowercase hex string of a byte list. -/
def bytesToHexString (bs : List Nat) : String :=
  String.mk ((bs.map byteToHex).flatten)

/-- `build_cache_key` (services/cache.py): SHA-256 hex digest of the UTF-8
bytes of the serialised signature. The `now` default
(`datetime.now(timezone.utc)`) is modelled by passing the UTC date
explicitly. -/
def build_cache_key (mode run_mode : String) (max_insights : Option Nat)
    (input_pattern : String) (d : SigDate) : String :=
  bytesToHexString (sha256 (utf8Encode
    (cacheSignature mode.data run_mode.data max_insights input_pattern.data d)))

/-- The `ScanRequest` body of `POST /scan` (api.py): includes the requester's
cosmetic `config_name` label; the requester identity (`current_user.id`)
comes from authentication. -/
structure ScanRequest where
  config_name : Option String
  mode : String
  max_insights : Option Nat
  input_pattern : String
  run_mode : String

/-- The cache-key computation of `create_scan_endpoint` (api.py): the key is
built from exactly `request.mode`, `request.run_mode`,
`request.max_insights` and `request.input_pattern` plus the current UTC
date; neither `current_user.id` nor `request.config_name` is passed. -/
def create_scan_cache_key (request : ScanRequest) (current_user_id : String)
    (today : SigDate) : String :=
  build_cache_key request.mode request.run_mode request.max_insights
    request.input_pattern today

/-! ## Helper lemmas on the store -/

theorem findRunById_eq_none_of_not_mem (s : Store) (run_id : String)
    (h : run_id ∉ s.map Run.id) : findRunById s run_id = none := by
  apply List.find?_eq_none.mpr
  intro r hr
  simp only [beq_iff_eq]
  intro he
  exact h (he ▸ List.mem_map_of_mem Run.id hr)

theorem id_of_findRunById {s : Store} {run_id : String} {r : Run}
    (h : findRunById s run_id = some r) : r.id = run_id := by
  have := List.find?_some h
  simpa [beq_iff_eq] using this

theorem findRunById_replaceFirstById (s : Store) (run_id : String) (r' : Run)
    (hid : r'.id = run_id) :
    ∀ run, findRunById s run_id = some run →
      findRunById (replaceFirstById s run_id r') run_id = some r' := by
  induction s with
  | nil => intro run h; simp [findRunById] at h
  | cons r rs ih =>
    intro run h
    by_cases hr : r.id = run_id
    · simp [replaceFirstById, hr, findRunById, hid]
    · have hb : (r.id == run_id) = false := by simp [hr]
      simp only [findRunById, List.find?, hb] at h
      simpa [findRunById, replaceFirstById, hb, List.find?] using ih run h

theorem fail_job_found {s : Store} {run_id : String} {run : Run}
    (msg : String) (now : Nat) (hf : findRunById s run_id = some run) :
    fail_job run_id msg now s = replaceFirstById s run_id { run with
      status := JobStatus.failed
      completedAt := some now
      errorMessage := some (truncateErrorMessage msg) } := by
  unfold fail_job
  rw [hf]

theorem fail_job_not_found {s : Store} {run_id : String}
    (msg : String) (now : Nat) (hf : findRunById s run_id = none) :
    fail_job run_id msg now s = s := by
  unfold fail_job
  rw [hf]

theorem complete_job_found {s : Store} {run_id : String} {run : Run}
    (ni nc : Nat) (cp jp nt : Option String) (now : Nat)
    (hf : findRunById s run_id = some run) :
    complete_job run_id ni nc cp jp nt now s = replaceFirstById s run_id { run with
      status := JobStatus.completed
      completedAt := some now
      progress := 100
      nbInsights := some ni
      nbClusters := some nc
      csvPath := cp
      jsonPath := jp
      notes := nt } := by
  unfold complete_job
  rw [hf]

/-! ## Concrete example rows and stores used by witnesses and
counterexamples -/

/-- A terminal (completed) canonical run. -/
def doneRun : Run :=
  { id := "r1", createdAt := 0, status := JobStatus.completed, progress := 100,
    startedAt := some 1, completedAt := some 2, errorMessage := none,
    nbInsights := some 5, nbClusters := some 2, isCachedResult := false,
    sourceRunId := none, csvPath := none, jsonPath := none, notes := none }

/-- A one-row store holding only `doneRun`. -/
def doneStore : Store := [doneRun]

/-! ## Claim C4: gradual similarity penalty -/

/-- C4: the adjusted score equals
`score * (1 - alpha * max(0, sim - tau))`; below `tau` the raw score is
returned exactly; for a non-negative raw score the adjusted score is
non-increasing in the similarity and never exceeds the raw score. -/
theorem C4_penalty_formula (score sim tau alpha : ℚ)
    (halpha0 : 0 ≤ alpha) (halpha1 : alpha ≤ 1) :
    adjustedScore score sim tau alpha = score * (1 - alpha * max 0 (sim - tau)) ∧
    (sim < tau → adjustedScore score sim tau alpha = score) ∧
    (0 ≤ score → ∀ sim2, sim ≤ sim2 →
      adjustedScore score sim2 tau alpha ≤ adjustedScore score sim tau alpha) ∧
    (0 ≤ score → adjustedScore score sim tau alpha ≤ score) := by
  refine ⟨rfl, ?_, ?_, ?_⟩
  · intro h
    have hmax : max 0 (sim - tau) = 0 := max_eq_left (by linarith)
    simp [adjustedScore, similarityPenalty, hmax]
  · intro hs sim2 hle
    have h1 : max 0 (sim - tau) ≤ max 0 (sim2 - tau) :=
      max_le_max le_rfl (by linarith)
    have h2 : alpha * max 0 (sim - tau) ≤ alpha * max 0 (sim2 - tau) :=
      mul_le_mul_of_nonneg_left h1 halpha0
    unfold adjustedScore similarityPenalty
    nlinarith
  · intro hs
    have h0 : (0 : ℚ) ≤ max 0 (sim - tau) := le_max_left _ _
    have h1 : 0 ≤ alpha * max 0 (sim - tau) := mul_nonneg halpha0 h0
    unfold adjustedScore similarityPenalty
    nlinarith

/-- Witness for C4 at the spec's worked example
(`sim=0.95, tau=0.90, alpha=0.5, raw=8.0`, adjusted `7.8`). -/
theorem C4_penalty_formula_witness :
    (0 ≤ (1/2 : ℚ)) ∧ ((1/2 : ℚ) ≤ 1) ∧
    adjustedScore 8 (19/20) (9/10) (1/2) = 39/5 ∧
    (adjustedScore 8 (19/20) (9/10) (1/2) =
        8 * (1 - (1/2) * max 0 ((19/20) - (9/10))) ∧
      ((19/20 : ℚ) < 9/10 → adjustedScore 8 (19/20) (9/10) (1/2) = 8) ∧
      (0 ≤ (8 : ℚ) → ∀ sim2, (19/20 : ℚ) ≤ sim2 →
        adjustedScore 8 sim2 (9/10) (1/2) ≤ adjustedScore 8 (19/20) (9/10) (1/2)) ∧
      (0 ≤ (8 : ℚ) → adjustedScore 8 (19/20) (9/10) (1/2) ≤ 8)) :=
  ⟨by norm_num, by norm_num,
   by norm_num [adjustedScore, similarityPenalty],
   C4_penalty_formula 8 (19/20) (9/10) (1/2) (by norm_num) (by norm_num)⟩

/-! ## Claim C5: novel / recurring / duplicate classification -/

/-- C5: with `tau < exact_dup_threshold` the classification is exhaustive
and exclusive: below `tau` neither flag, in `[tau, exact_dup)` exactly
`is_recurring`, at or above `exact_dup` exactly `is_duplicate`, and the two
flags are never both set. -/
theorem C5_classification (sim tau ed : ℚ) (mid : Option String)
    (h : tau < ed) :
    (sim < tau → (classifySimilarity sim mid tau ed).is_duplicate = false ∧
      (classifySimilarity sim mid tau ed).is_recurring = false) ∧
    (tau ≤ sim → sim < ed →
      (classifySimilarity sim mid tau ed).is_recurring = true ∧
      (classifySimilarity sim mid tau ed).is_duplicate = false) ∧
    (ed ≤ sim → (classifySimilarity sim mid tau ed).is_duplicate = true ∧
      (classifySimilarity sim mid tau ed).is_recurring = false) ∧
    ¬((classifySimilarity sim mid tau ed).is_duplicate = true ∧
      (classifySimilarity sim mid tau ed).is_recurring = true) := by
  have hdup : (classifySimilarity sim mid tau ed).is_duplicate
      = decide (ed ≤ sim) := rfl
  have hrec : (classifySimilarity sim mid tau ed).is_recurring
      = (decide (tau ≤ sim) && !decide (ed ≤ sim)) := rfl
  refine ⟨fun h1 => ⟨?_, ?_⟩, fun h1 h2 => ⟨?_, ?_⟩, fun h1 => ⟨?_, ?_⟩, ?_⟩
  · rw [hdup, decide_eq_false_iff_not]
    linarith
  · rw [hrec, show decide (tau ≤ sim) = false from
      decide_eq_false_iff_not.mpr (by linarith)]
    simp
  · rw [hrec, decide_eq_true_eq.mpr h1, show decide (ed ≤ sim) = false from
      decide_eq_false_iff_not.mpr (by linarith)]
    simp
  · rw [hdup, decide_eq_false_iff_not]
    linarith
  · rw [hdup, decide_eq_true_eq.mpr h1]
  · rw [hrec, decide_eq_true_eq.mpr h1]
    simp
  · rintro ⟨h1, h2⟩
    rw [hdup] at h1
    rw [hrec, h1] at h2
    simp at h2

/-- Witness for C5 at the spec's worked example
(`sim=0.95, tau=0.90, exact_dup=0.985`: recurring). -/
theorem C5_classification_witness :
    ((9/10 : ℚ) < 197/200) ∧
    (classifySimilarity (19/20) none (9/10) (197/200)).is_recurring = true ∧
    (classifySimilarity (19/20) none (9/10) (197/200)).is_duplicate = false :=
  ⟨by norm_num,
   (C5_classification (19/20) (9/10) (197/200) none (by norm_num)).2.1
     (by norm_num) (by norm_num)⟩

/-! ## Claim C9: bounded error message storage -/

/-- C9: messages of at most 2000 characters are stored unchanged; longer
messages are truncated to exactly 2000 characters — the first 1997
characters followed by `...` — and this is the value `fail_job` stores. -/
theorem C9_error_truncation :
    (∀ msg : String, msg.length ≤ 2000 → truncateErrorMessage msg = msg) ∧
    (∀ msg : String, 2000 < msg.length →
      truncateErrorMessage msg = String.mk (msg.data.take 1997) ++ "..." ∧
      (truncateErrorMessage msg).length = 2000) ∧
    (∀ (s : Store) (run_id msg : String) (now : Nat) (r : Run),
      findRunById (fail_job run_id msg now s) run_id = some r →
      r.errorMessage = some (truncateErrorMessage msg)) := by
  refine ⟨fun msg h => ?_, fun msg h => ?_, ?_⟩
  · unfold truncateErrorMessage
    rw [if_neg (by omega)]
  · have heq : truncateErrorMessage msg = String.mk (msg.data.take 1997) ++ "..." := by
      unfold truncateErrorMessage
      rw [if_pos (by omega)]
    refine ⟨heq, ?_⟩
    rw [heq, String.length_append]
    have h1 : (String.mk (msg.data.take 1997)).length = (msg.data.take 1997).length := rfl
    have h2 : (msg.data.take 1997).length = min 1997 msg.data.length :=
      List.length_take _ _
    have h3 : msg.length = msg.data.length := rfl
    have h4 : ("..." : String).length = 3 := rfl
    omega
  · intro s run_id msg now r hfound
    cases hf : findRunById s run_id with
    | none =>
      rw [fail_job_not_found msg now hf, hf] at hfound
      exact absurd hfound (by simp)
    | some run =>
      rw [fail_job_found msg now hf] at hfound
      have h2 := findRunById_replaceFirstById s run_id
        { run with
          status := JobStatus.failed
          completedAt := some now
          errorMessage := some (truncateErrorMessage msg) }
        (by simpa using id_of_findRunById hf) run hf
      rw [h2] at hfound
      cases hfound
      rfl

/-- Witness for C9: a short message kept as-is and a 2001-character message
truncated to 2000. -/
theorem C9_error_truncation_witness :
    (("boom" : String).length ≤ 2000 ∧ truncateErrorMessage ("boom") = "boom") ∧
    (2000 < (String.mk (List.replicate 2001 'x')).length ∧
      (truncateErrorMessage (String.mk (List.replicate 2001 'x'))).length = 2000) :=
  ⟨⟨by decide, C9_error_truncation.1 ("boom") (by decide)⟩,
   ⟨(by
      show 2000 < (List.replicate 2001 'x').length
      rw [List.length_replicate]
      norm_num),
    (C9_error_truncation.2.1 (String.mk (List.replicate 2001 'x'))
      (by
        show 2000 < (List.replicate 2001 'x').length
        rw [List.length_replicate]
        norm_num)).2⟩⟩

/-! ## Claim C10: missing run id is a silent no-op -/

/-- C10: `update_job_progress`, `complete_job` and `fail_job` on a run id
absent from the store return normally (they are total functions of the
store, so no exception is possible) and leave the store unchanged. -/
theorem C10_missing_run_noop (s : Store) (run_id : String)
    (h : run_id ∉ s.map Run.id) :
    (∀ progress, update_job_progress run_id progress s = s) ∧
    (∀ ni nc cp jp nt now, complete_job run_id ni nc cp jp nt now s = s) ∧
    (∀ msg now, fail_job run_id msg now s = s) := by
  have hf := findRunById_eq_none_of_not_mem s run_id h
  refine ⟨fun p => ?_, fun ni nc cp jp nt now => ?_, fun msg now => ?_⟩
  · unfold update_job_progress
    rw [hf]
  · unfold complete_job
    rw [hf]
  · exact fail_job_not_found msg now hf

/-- Witness for C10 on a one-row store and an absent id. -/
theorem C10_missing_run_noop_witness :
    ("nope" ∉ doneStore.map Run.id) ∧
    ((∀ progress, update_job_progress ("nope") progress doneStore = doneStore) ∧
     (∀ ni nc cp jp nt now, complete_job ("nope") ni nc cp jp nt now doneStore = doneStore) ∧
     (∀ msg now, fail_job ("nope") msg now doneStore = doneStore)) :=
  ⟨by decide, C10_missing_run_noop doneStore ("nope") (by decide)⟩

/-! ## Claim C7: complete / fail transitions -/

/-- Counterexample to C7: `fail_job` on a run whose status is `completed`
(a terminal state) does not leave it unchanged and reports no error — it
transitions the run to `failed`, so an edge out of a terminal state exists. -/
theorem C7_counterexample :
    doneRun.status = JobStatus.completed ∧
    (findRunById (fail_job ("r1") ("boom") 3 doneStore) ("r1")).map Run.status =
      some JobStatus.failed ∧
    fail_job ("r1") ("boom") 3 doneStore ≠ doneStore := by decide

/-- C7 as amended: `complete_job` and `fail_job` transition any run present
in the store to `completed` / `failed`, regardless of its current status
(including out of the terminal states); only a missing run id is a silent
no-op. -/
theorem C7_amended_transitions (s : Store) (run_id : String) (run : Run)
    (hf : findRunById s run_id = some run) :
    ∀ (ni nc : Nat) (cp jp nt : Option String) (msg : String) (now : Nat),
      (findRunById (complete_job run_id ni nc cp jp nt now s) run_id).map Run.status
        = some JobStatus.completed ∧
      (findRunById (fail_job run_id msg now s) run_id).map Run.status
        = some JobStatus.failed := by
  intro ni nc cp jp nt msg now
  constructor
  · rw [complete_job_found ni nc cp jp nt now hf]
    rw [findRunById_replaceFirstById s run_id
      { run with
        status := JobStatus.completed
        completedAt := some now
        progress := 100
        nbInsights := some ni
        nbClusters := some nc
        csvPath := cp
        jsonPath := jp
        notes := nt }
      (by simpa using id_of_findRunById hf) run hf]
    rfl
  · rw [fail_job_found msg now hf]
    rw [findRunById_replaceFirstById s run_id
      { run with
        status := JobStatus.failed
        completedAt := some now
        errorMessage := some (truncateErrorMessage msg) }
      (by simpa using id_of_findRunById hf) run hf]
    rfl

/-- Witness for the amended C7 on a store whose only run is completed. -/
theorem C7_amended_transitions_witness :
    findRunById doneStore ("r1") = some doneRun ∧
    (∀ (ni nc : Nat) (cp jp nt : Option String) (msg : String) (now : Nat),
      (findRunById (complete_job ("r1") ni nc cp jp nt now doneStore) ("r1")).map Run.status
        = some JobStatus.completed ∧
      (findRunById (fail_job ("r1") msg now doneStore) ("r1")).map Run.status
        = some JobStatus.failed) :=
  ⟨by decide, C7_amended_transitions doneStore ("r1") doneRun (by decide)⟩

/-! ## Claim C3: effective status of cached runs -/

/-- A cached run whose snapshot says `running` at progress 42 and whose
canonical source run has vanished. -/
def orphanCachedRun : Run :=
  { id := "c1", createdAt := 10, status := JobStatus.running, progress := 42,
    startedAt := some 11, completedAt := none, errorMessage := none,
    nbInsights := none, nbClusters := none, isCachedResult := true,
    sourceRunId := some ("gone"), csvPath := none, jsonPath := none,
    notes := none }

/-- A store holding only the orphaned cached run. -/
def orphanStore : Store := [orphanCachedRun]

/-- Counterexample to C3: for a cached run whose `source_run_id` points to a
vanished canonical run, `get_job_status` returns normally — no error is
surfaced — and the returned view is exactly the status/progress snapshot
stored on the cached run at creation. -/
theorem C3_counterexample :
    orphanCachedRun.isCachedResult = true ∧
    orphanCachedRun.sourceRunId = some ("gone") ∧
    findRunById orphanStore ("gone") = none ∧
    get_job_status orphanStore ("c1") = some (snapshotView orphanCachedRun) ∧
    (snapshotView orphanCachedRun).status = JobStatus.running ∧
    (snapshotView orphanCachedRun).progress = 42 := by decide

/-- C3 as amended: when the canonical source run exists, `get_job_status`
on the cached run returns the canonical run's current live status, progress,
timestamps, error message and result counts (not the stored snapshot); when
the canonical has vanished, `get_job_status` silently falls back to the
snapshot stored on the cached run, while the insights endpoint surfaces an
internal error for the same situation. -/
theorem C3_amended_effective_status (s : Store) (run_id sid : String)
    (run : Run) (hf : findRunById s run_id = some run)
    (hc : run.isCachedResult = true) (hs : run.sourceRunId = some sid) :
    (∀ src, findRunById s sid = some src →
      get_job_status s run_id = some { snapshotView run with
        status := src.status
        progress := src.progress
        started_at := src.startedAt
        completed_at := src.completedAt
        error_message := src.errorMessage
        nb_insights := src.nbInsights
        nb_clusters := src.nbClusters }) ∧
    (findRunById s sid = none →
      get_job_status s run_id = some (snapshotView run) ∧
      resolve_run_insights s run_id = InsightsResolution.internalError) := by
  constructor
  · intro src hsrc
    simp only [get_job_status, hf, hc, hs, hsrc]
  · intro hnone
    constructor
    · simp only [get_job_status, hf, hc, hs, hnone]
    · simp only [resolve_run_insights, hf, hc, hs, hnone]

/-- Witness for the amended C3: a cached run with a stale `completed`
snapshot whose canonical source run is currently `running`. -/
def liveSourceRun : Run :=
  { id := "src1", createdAt := 0, status := JobStatus.running, progress := 55,
    startedAt := some 1, completedAt := none, errorMessage := none,
    nbInsights := none, nbClusters := none, isCachedResult := false,
    sourceRunId := none, csvPath := none, jsonPath := none, notes := none }

/-- A cached run whose creation-time snapshot (queued, progress 0) differs
from its canonical run's live state. -/
def staleCachedRun : Run :=
  { id := "c2", createdAt := 5, status := JobStatus.queued, progress := 0,
    startedAt := none, completedAt := none, errorMessage := none,
    nbInsights := none, nbClusters := none, isCachedResult := true,
    sourceRunId := some ("src1"), csvPath := none, jsonPath := none,
    notes := none }

/-- Store with the live canonical run and the cached run referencing it. -/
def cachedPairStore : Store := [liveSourceRun, staleCachedRun]

theorem C3_amended_effective_status_witness :
    findRunById cachedPairStore ("c2") = some staleCachedRun ∧
    staleCachedRun.isCachedResult = true ∧
    staleCachedRun.sourceRunId = some ("src1") ∧
    ((∀ src, findRunById cachedPairStore ("src1") = some src →
      get_job_status cachedPairStore ("c2") = some { snapshotView staleCachedRun with
        status := src.status
        progress := src.progress
        started_at := src.startedAt
        completed_at := src.completedAt
        error_message := src.errorMessage
        nb_insights := src.nbInsights
        nb_clusters := src.nbClusters }) ∧
    (findRunById cachedPairStore ("src1") = none →
      get_job_status cachedPairStore ("c2") = some (snapshotView staleCachedRun) ∧
      resolve_run_insights cachedPairStore ("c2") = InsightsResolution.internalError)) :=
  ⟨by decide, by decide, by decide,
   C3_amended_effective_status cachedPairStore ("c2") ("src1") staleCachedRun
     (by decide) (by decide) (by decide)⟩

/-! ## Claim C8: priority score weighting -/

theorem round2_bounds (x : ℚ) (h0 : 0 ≤ x) (h1 : x ≤ 10) :
    0 ≤ round2 x ∧ round2 x ≤ 10 := by
  unfold round2
  rw [round_eq]
  have hl : (0 : ℤ) ≤ ⌊x * 100 + 1/2⌋ := by
    apply Int.le_floor.mpr
    push_cast
    linarith
  have hu : ⌊x * 100 + 1/2⌋ ≤ 1000 := by
    have h2 : x * 100 + 1/2 ≤ (1000 : ℚ) + 1/2 := by linarith
    have h3 := Int.floor_mono h2
    have h4 : ⌊(1000 : ℚ) + 1/2⌋ = 1000 := by
      rw [Int.floor_eq_iff]
      constructor <;> norm_num
    rw [h4] at h3
    exact h3
  constructor
  · apply div_nonneg _ (by norm_num : (0:ℚ) ≤ 100)
    exact_mod_cast hl
  · rw [div_le_iff₀ (by norm_num : (0:ℚ) < 100)]
    have hc : ((⌊x * 100 + 1/2⌋ : ℤ) : ℚ) ≤ ((1000 : ℤ) : ℚ) := by
      exact_mod_cast hu
    push_cast at hc
    linarith

/-- Counterexample to C8: with all five weights zero the code does not fall
back to equal weights — it keeps the zero weights (treating the weight total
as 1) and returns 0, while equal weights on all-ten components would give
10. -/
theorem C8_counterexample :
    calculate_priority_score 10 10 10 10 10 10 0 0 0 0 0 = 0 ∧
    calculate_priority_score 10 10 10 10 10 10 (1/5) (1/5) (1/5) (1/5) (1/5) = 10 ∧
    calculate_priority_score 10 10 10 10 10 10 0 0 0 0 0 ≠
      calculate_priority_score 10 10 10 10 10 10 (1/5) (1/5) (1/5) (1/5) (1/5) := by
  refine ⟨?_, ?_, ?_⟩ <;> norm_num [calculate_priority_score, round2, round_eq]

/-- C8 as amended: when the weight total is non-zero the effective
coefficients `w_i / total` sum to 1; for component inputs in `[0, 10]` and
non-negative weights the output lies in `[0, 10]` (upper bound by the
explicit `min _ 10` clamp, lower bound because the combination is
non-negative); when all five weights are zero the function keeps the zero
weights (the total is merely replaced by 1) and returns 0 instead of
falling back to equal weights. -/
theorem C8_amended_priority_bounds
    (pl hs ts ns ws trs pw tw nw ww trw : ℚ)
    (hpl0 : 0 ≤ pl) (hpl1 : pl ≤ 10) (hhs0 : 0 ≤ hs) (hhs1 : hs ≤ 10)
    (hts0 : 0 ≤ ts) (hts1 : ts ≤ 10) (hns0 : 0 ≤ ns) (hns1 : ns ≤ 10)
    (hws0 : 0 ≤ ws) (hws1 : ws ≤ 10) (htrs0 : 0 ≤ trs) (htrs1 : trs ≤ 10)
    (hpw : 0 ≤ pw) (htw : 0 ≤ tw) (hnw : 0 ≤ nw) (hww : 0 ≤ ww)
    (htrw : 0 ≤ trw) :
    (pw + tw + nw + ww + trw ≠ 0 →
      pw / (pw + tw + nw + ww + trw) + tw / (pw + tw + nw + ww + trw) +
        nw / (pw + tw + nw + ww + trw) + ww / (pw + tw + nw + ww + trw) +
        trw / (pw + tw + nw + ww + trw) = 1) ∧
    (0 ≤ calculate_priority_score pl hs ts ns ws trs pw tw nw ww trw ∧
      calculate_priority_score pl hs ts ns ws trs pw tw nw ww trw ≤ 10) ∧
    (pw = 0 → tw = 0 → nw = 0 → ww = 0 → trw = 0 →
      calculate_priority_score pl hs ts ns ws trs pw tw nw ww trw = 0) := by
  have hallzero : ∀ (h1 : pw = 0) (h2 : tw = 0) (h3 : nw = 0) (h4 : ww = 0)
      (h5 : trw = 0),
      calculate_priority_score pl hs ts ns ws trs pw tw nw ww trw = 0 := by
    intro h1 h2 h3 h4 h5
    subst h1; subst h2; subst h3; subst h4; subst h5
    norm_num [calculate_priority_score, round2, round_eq]
  refine ⟨fun hT => by field_simp, ?_, hallzero⟩
  by_cases hT : pw + tw + nw + ww + trw = 0
  · have h1 : pw = 0 := by linarith
    have h2 : tw = 0 := by linarith
    have h3 : nw = 0 := by linarith
    have h4 : ww = 0 := by linarith
    have h5 : trw = 0 := by linarith
    rw [hallzero h1 h2 h3 h4 h5]
    norm_num
  · have hTpos : 0 < pw + tw + nw + ww + trw :=
      lt_of_le_of_ne (by linarith) (Ne.symm hT)
    have hunfold : calculate_priority_score pl hs ts ns ws trs pw tw nw ww trw
        = round2 (min ((pl * (7/10) + hs * (3/10)) *
            (pw / (pw + tw + nw + ww + trw)) +
          ts * (tw / (pw + tw + nw + ww + trw)) +
          ns * (nw / (pw + tw + nw + ww + trw)) +
          ws * (ww / (pw + tw + nw + ww + trw)) +
          trs * (trw / (pw + tw + nw + ww + trw))) 10) := by
      simp only [calculate_priority_score, if_neg hT]
    have hcp0 : 0 ≤ pl * (7/10) + hs * (3/10) := by
      have := mul_nonneg hpl0 (by norm_num : (0:ℚ) ≤ 7/10)
      have := mul_nonneg hhs0 (by norm_num : (0:ℚ) ≤ 3/10)
      linarith
    have hP0 : 0 ≤ (pl * (7/10) + hs * (3/10)) *
          (pw / (pw + tw + nw + ww + trw)) +
        ts * (tw / (pw + tw + nw + ww + trw)) +
        ns * (nw / (pw + tw + nw + ww + trw)) +
        ws * (ww / (pw + tw + nw + ww + trw)) +
        trs * (trw / (pw + tw + nw + ww + trw)) := by
      have e1 := mul_nonneg hcp0 (div_nonneg hpw hTpos.le)
      have e2 := mul_nonneg hts0 (div_nonneg htw hTpos.le)
      have e3 := mul_nonneg hns0 (div_nonneg hnw hTpos.le)
      have e4 := mul_nonneg hws0 (div_nonneg hww hTpos.le)
      have e5 := mul_nonneg htrs0 (div_nonneg htrw hTpos.le)
      linarith
    rw [hunfold]
    exact round2_bounds _ (le_min hP0 (by norm_num)) (min_le_right _ _)

/-- Witness for the amended C8 at the default weights and mid-range
components. -/
theorem C8_amended_priority_bounds_witness :
    ((3/10 : ℚ) + 1/4 + 3/20 + 1/5 + 1/10 ≠ 0 →
      (3/10 : ℚ) / (3/10 + 1/4 + 3/20 + 1/5 + 1/10) +
        (1/4) / (3/10 + 1/4 + 3/20 + 1/5 + 1/10) +
        (3/20) / (3/10 + 1/4 + 3/20 + 1/5 + 1/10) +
        (1/5) / (3/10 + 1/4 + 3/20 + 1/5 + 1/10) +
        (1/10) / (3/10 + 1/4 + 3/20 + 1/5 + 1/10) = 1) ∧
    (0 ≤ calculate_priority_score 8 6 7 5 3 5 (3/10) (1/4) (3/20) (1/5) (1/10) ∧
      calculate_priority_score 8 6 7 5 3 5 (3/10) (1/4) (3/20) (1/5) (1/10) ≤ 10) ∧
    ((3/10 : ℚ) = 0 → (1/4 : ℚ) = 0 → (3/20 : ℚ) = 0 → (1/5 : ℚ) = 0 →
      (1/10 : ℚ) = 0 →
      calculate_priority_score 8 6 7 5 3 5 (3/10) (1/4) (3/20) (1/5) (1/10) = 0) :=
  C8_amended_priority_bounds 8 6 7 5 3 5 (3/10) (1/4) (3/20) (1/5) (1/10)
    (by norm_num) (by norm_num) (by norm_num) (by norm_num) (by norm_num)
    (by norm_num) (by norm_num) (by norm_num) (by norm_num) (by norm_num)
    (by norm_num) (by norm_num) (by norm_num) (by norm_num) (by norm_num)
    (by norm_num) (by norm_num)

/-! ## Claim C6: MMR single-select -/

theorem maxOf_max {α : Type} [LinearOrder α] (a b : α) :
    ∀ ys : List α, maxOf (max a b) ys = max a (maxOf b ys)
  | [] => rfl
  | y :: ys => by
    show maxOf (max (max a b) y) ys = max a (maxOf (max b y) ys)
    rw [max_assoc, maxOf_max a (max b y) ys]

theorem maxOf_cons {α : Type} [LinearOrder α] (x y : α) (ys : List α) :
    maxOf x (y :: ys) = max x (maxOf y ys) := by
  show maxOf (max x y) ys = max x (maxOf y ys)
  exact maxOf_max x y ys

theorem minOf_min (a b : ℚ) :
    ∀ ys : List ℚ, (ys.foldl min (min a b)) = min a (ys.foldl min b)
  | [] => rfl
  | y :: ys => by
    show ys.foldl min (min (min a b) y) = min a (ys.foldl min (min b y))
    rw [min_assoc, minOf_min a (min b y) ys]

theorem le_maxOf {α : Type} [LinearOrder α] (x : α) :
    ∀ xs : List α, x ≤ maxOf x xs
  | [] => le_rfl
  | y :: ys => by
    rw [maxOf_cons]
    exact le_max_left _ _

theorem mem_le_maxOf {α : Type} [LinearOrder α] :
    ∀ (xs : List α) (x y : α), y ∈ xs → y ≤ maxOf x xs
  | [], _, _, h => absurd h (List.not_mem_nil _)
  | z :: zs, x, y, h => by
    rw [maxOf_cons]
    rcases List.mem_cons.mp h with h1 | h1
    · subst h1
      exact le_trans (le_maxOf _ _) (le_max_right _ _)
    · exact le_trans (mem_le_maxOf zs z y h1) (le_max_right _ _)

theorem minOf_le (x : ℚ) :
    ∀ xs : List ℚ, xs.foldl min x ≤ x
  | [] => le_rfl
  | y :: ys => by
    show ys.foldl min (min x y) ≤ x
    rw [minOf_min]
    exact min_le_left _ _

theorem minOf_mem_le :
    ∀ (xs : List ℚ) (x y : ℚ), y ∈ xs → xs.foldl min x ≤ y
  | [], _, _, h => absurd h (List.not_mem_nil _)
  | z :: zs, x, y, h => by
    show zs.foldl min (min x z) ≤ y
    rw [minOf_min]
    rcases List.mem_cons.mp h with h1 | h1
    · subst h1
      exact le_trans (min_le_right _ _) (minOf_le _ _)
    · exact le_trans (min_le_right _ _) (minOf_mem_le zs z y h1)

theorem maxOf_all_eq {α : Type} [LinearOrder α] (c : α) :
    ∀ ys : List α, (∀ y ∈ ys, y = c) → maxOf c ys = c
  | [], _ => rfl
  | y :: ys, h => by
    rw [maxOf_cons, h y (List.mem_cons_self _ _),
      maxOf_all_eq c ys (fun z hz => h z (List.mem_cons_of_mem _ hz)), max_self]

theorem maxOf_map {α β : Type} [LinearOrder α] [LinearOrder β]
    (f : α → β) (hf : Monotone f) :
    ∀ (x : α) (xs : List α), maxOf (f x) (xs.map f) = f (maxOf x xs)
  | x, [] => rfl
  | x, y :: ys => by
    rw [List.map_cons, maxOf_cons, maxOf_cons, maxOf_map f hf y ys,
      ← Monotone.map_max hf]

theorem argmaxIdx_map {α β : Type} [LinearOrder α] [LinearOrder β]
    (f : α → β) (hf : StrictMono f) :
    ∀ l : List α, argmaxIdx (l.map f) = argmaxIdx l
  | [] => rfl
  | [_] => rfl
  | x :: y :: ys => by
    rw [List.map_cons, List.map_cons]
    show (if f x < maxOf (f y) (ys.map f) then argmaxIdx (f y :: ys.map f) + 1 else 0)
      = (if x < maxOf y ys then argmaxIdx (y :: ys) + 1 else 0)
    rw [maxOf_map f hf.monotone y ys, ← List.map_cons, argmaxIdx_map f hf (y :: ys)]
    by_cases hx : x < maxOf y ys
    · rw [if_pos hx, if_pos (hf.lt_iff_lt.mpr hx)]
    · rw [if_neg hx, if_neg (fun hc => hx (hf.lt_iff_lt.mp hc))]

theorem argmaxIdx_const {α : Type} [LinearOrder α] (c : α) :
    ∀ l : List α, argmaxIdx (l.map (fun _ => c)) = 0
  | [] => rfl
  | [_] => rfl
  | _ :: y :: ys => by
    rw [List.map_cons, List.map_cons]
    show (if c < maxOf c ((ys.map fun _ => c)) then _ + 1 else 0) = 0
    rw [maxOf_all_eq c _ (fun z hz => by
      obtain ⟨a, _, ha⟩ := List.mem_map.mp hz
      exact ha.symm)]
    simp

theorem argmaxIdx_lt_length {α : Type} [LinearOrder α] :
    ∀ (x : α) (xs : List α), argmaxIdx (x :: xs) < xs.length + 1
  | _, [] => Nat.zero_lt_one
  | x, y :: ys => by
    show (if x < maxOf y ys then argmaxIdx (y :: ys) + 1 else 0) < ys.length + 1 + 1
    by_cases hx : x < maxOf y ys
    · rw [if_pos hx]
      exact Nat.succ_lt_succ (argmaxIdx_lt_length y ys)
    · rw [if_neg hx]
      exact Nat.succ_pos _

theorem argmaxIdx_getD {α : Type} [LinearOrder α] :
    ∀ (x : α) (xs : List α) (d : α),
      (x :: xs).getD (argmaxIdx (x :: xs)) d = maxOf x xs
  | _, [], _ => rfl
  | x, y :: ys, d => by
    show (x :: y :: ys).getD (if x < maxOf y ys then argmaxIdx (y :: ys) + 1 else 0) d
      = maxOf x (y :: ys)
    rw [maxOf_cons]
    by_cases hx : x < maxOf y ys
    · rw [if_pos hx, max_eq_right hx.le]
      show (y :: ys).getD (argmaxIdx (y :: ys)) d = maxOf y ys
      exact argmaxIdx_getD y ys d
    · rw [if_neg hx, max_eq_left (not_lt.mp hx)]
      rfl

/-- C6: on a non-empty candidate pool, for any similarity matrix and any
lambda, MMR reranking with `top_k = 1` selects exactly one candidate,
whose raw priority score is the maximum of the whole pool (min-max
normalisation — all ones when every score is equal — preserves the first
argmax). -/
theorem C6_mmr_single_select (ps : List ℚ) (sim : Nat → Nat → ℚ) (lam : ℚ)
    (hne : ps ≠ []) :
    ∃ i, mmr_rerank_indices ps sim 1 lam = [i] ∧ i < ps.length ∧
      ps.getD i 0 = listMax ps := by
  obtain ⟨x, xs, rfl⟩ := List.exists_cons_of_ne_nil hne
  have hmin1 : min 1 (x :: xs).length = 1 :=
    min_eq_left (by simp [List.length_cons])
  have hloop : mmr_rerank_indices (x :: xs) sim 1 lam
      = [argmaxIdx (compute_mmr_scores (x :: xs) sim [] lam)] := by
    unfold mmr_rerank_indices
    rw [hmin1]
    rfl
  have hscores : compute_mmr_scores (x :: xs) sim [] lam
      = (normalize_scores (x :: xs)).map (fun q : ℚ => (q : WithBot ℚ)) := rfl
  have hcoe : argmaxIdx (compute_mmr_scores (x :: xs) sim [] lam)
      = argmaxIdx (normalize_scores (x :: xs)) := by
    rw [hscores]
    exact argmaxIdx_map (fun q : ℚ => (q : WithBot ℚ)) WithBot.coe_strictMono _
  have hle : listMin (x :: xs) ≤ listMax (x :: xs) :=
    le_trans (minOf_le x xs) (le_maxOf x xs)
  refine ⟨argmaxIdx (normalize_scores (x :: xs)), by rw [hloop, hcoe], ?_, ?_⟩
  · by_cases heq : listMax (x :: xs) = listMin (x :: xs)
    · simp only [normalize_scores, if_pos heq, argmaxIdx_const]
      simp [List.length_cons]
    · simp only [normalize_scores, if_neg heq]
      have hpos : 0 < listMax (x :: xs) - listMin (x :: xs) := by
        rcases lt_or_eq_of_le hle with h | h
        · linarith
        · exact absurd h.symm heq
      have hmono : StrictMono (fun s : ℚ =>
          (s - listMin (x :: xs)) / (listMax (x :: xs) - listMin (x :: xs))) :=
        fun a b hab =>
          div_lt_div_of_pos_right (sub_lt_sub_right hab _) hpos
      rw [argmaxIdx_map _ hmono (x :: xs)]
      exact List.length_cons _ _ ▸ argmaxIdx_lt_length x xs
  · by_cases heq : listMax (x :: xs) = listMin (x :: xs)
    · simp only [normalize_scores, if_pos heq, argmaxIdx_const]
      have hmem : x ∈ x :: xs := List.mem_cons_self _ _
      have h1 : listMin (x :: xs) ≤ x := minOf_le x xs
      have h2 : x ≤ listMax (x :: xs) := le_maxOf x xs
      have : x = listMax (x :: xs) := by rw [heq] at h2 ⊢; linarith
      simpa using this
    · simp only [normalize_scores, if_neg heq]
      have hpos : 0 < listMax (x :: xs) - listMin (x :: xs) := by
        rcases lt_or_eq_of_le hle with h | h
        · linarith
        · exact absurd h.symm heq
      have hmono : StrictMono (fun s : ℚ =>
          (s - listMin (x :: xs)) / (listMax (x :: xs) - listMin (x :: xs))) :=
        fun a b hab =>
          div_lt_div_of_pos_right (sub_lt_sub_right hab _) hpos
      rw [argmaxIdx_map _ hmono (x :: xs)]
      exact argmaxIdx_getD x xs 0

/-- Witness for C6 on the pool `[1, 3, 2]` with zero similarities and
`lambda = 1/2`. -/
theorem C6_mmr_single_select_witness :
    ([(1 : ℚ), 3, 2] ≠ []) ∧
    ∃ i, mmr_rerank_indices [(1 : ℚ), 3, 2] (fun _ _ => 0) 1 (1/2) = [i] ∧
      i < [(1 : ℚ), 3, 2].length ∧
      [(1 : ℚ), 3, 2].getD i 0 = listMax [(1 : ℚ), 3, 2] :=
  ⟨List.cons_ne_nil _ _,
   C6_mmr_single_select [(1 : ℚ), 3, 2] (fun _ _ => 0) (1/2)
     (List.cons_ne_nil _ _)⟩

/-! ## Claim C1: claim idempotency

Concurrency model: each `claim_next_job` call is one database transaction
made atomic by `FOR UPDATE SKIP LOCKED`, so any set of concurrent calls
linearises to a sequence of atomic calls; `claimJobs` is that sequence. -/

/-- The ids of the queued canonical runs of the store, in claim order. -/
def queuedCanonicalIds (s : Store) : List String :=
  (s.filter isQueuedCanonical).map Run.id

/-- The running row written by a successful claim. -/
def setRunning (q : Run) (now : Nat) : Run :=
  { q with status := JobStatus.running, startedAt := some now, progress := 0 }

/-- `n` successive atomic `claim_next_job` transactions (the linearisation
of `n` concurrent callers): the ids of the successfully claimed runs, in
order, together with the final store. -/
def claimJobs : Nat → Nat → Store → List String × Store
  | 0, _, s => ([], s)
  | n + 1, now, s =>
    match claim_next_job now s with
    | (none, s') => ([], s')
    | (some run, s') =>
      let rest := claimJobs n (now + 1) s'
      (run.id :: rest.1, rest.2)

theorem claim_next_job_of_find_none {s : Store} (now : Nat)
    (h : s.find? isQueuedCanonical = none) :
    claim_next_job now s = (none, s) := by
  unfold claim_next_job
  rw [h]

theorem queuedCanonicalIds_of_find_none {s : Store}
    (h : s.find? isQueuedCanonical = none) : queuedCanonicalIds s = [] := by
  unfold queuedCanonicalIds
  rw [List.filter_eq_nil_iff.mpr (fun r hr hq => by
    have := List.find?_eq_none.mp h r hr
    exact this hq)]
  rfl

theorem filter_cons_of_head {r : Run} {rs : List Run}
    (h : isQueuedCanonical r = true) :
    (r :: rs).filter isQueuedCanonical = r :: rs.filter isQueuedCanonical := by
  simp [List.filter, h]

theorem find?_qc_filter {s : Store} {q : Run}
    (h : s.find? isQueuedCanonical = some q) :
    ∃ t, s.filter isQueuedCanonical = q :: t := by
  induction s with
  | nil => simp [List.find?] at h
  | cons r rs ih =>
    cases hqc : isQueuedCanonical r with
    | true =>
      rw [List.find?_cons_of_pos _ hqc] at h
      cases h
      exact ⟨rs.filter isQueuedCanonical, filter_cons_of_head hqc⟩
    | false =>
      rw [List.find?_cons_of_neg _ (by simp [hqc])] at h
      obtain ⟨t, ht⟩ := ih h
      exact ⟨t, by simp [List.filter, hqc, ht]⟩

theorem find?_id_of_find?_qc {s : Store} {q : Run}
    (hN : (s.map Run.id).Nodup) (h : s.find? isQueuedCanonical = some q) :
    findRunById s q.id = some q := by
  induction s with
  | nil => simp [List.find?] at h
  | cons r rs ih =>
    cases hqc : isQueuedCanonical r with
    | true =>
      rw [List.find?_cons_of_pos _ hqc] at h
      cases h
      simp [findRunById, List.find?]
    | false =>
      rw [List.find?_cons_of_neg _ (by simp [hqc])] at h
      have hqmem : q ∈ rs := List.mem_of_find?_eq_some h
      have hne : r.id ≠ q.id := by
        intro he
        exact (List.nodup_cons.mp hN).1 (he ▸ List.mem_map_of_mem Run.id hqmem)
      have hb : (r.id == q.id) = false := by simp [hne]
      simp only [findRunById, List.find?, hb]
      exact ih (List.nodup_cons.mp hN).2 h

theorem map_id_replaceFirstById (s : Store) (run_id : String) (r' : Run)
    (hid : r'.id = run_id) :
    (replaceFirstById s run_id r').map Run.id = s.map Run.id := by
  induction s with
  | nil => rfl
  | cons r rs ih =>
    by_cases hr : r.id = run_id
    · simp [replaceFirstById, hr, hid]
    · have hb : (r.id == run_id) = false := by simp [hr]
      simp [replaceFirstById, hb, ih]

theorem filter_replaceFirstById {s : Store} {q : Run} {r' : Run}
    (hN : (s.map Run.id).Nodup) (h : s.find? isQueuedCanonical = some q)
    (hid : r'.id = q.id) (hqf : isQueuedCanonical r' = false) :
    (replaceFirstById s q.id r').filter isQueuedCanonical
      = (s.filter isQueuedCanonical).tail := by
  induction s with
  | nil => simp [List.find?] at h
  | cons r rs ih =>
    cases hqc : isQueuedCanonical r with
    | true =>
      rw [List.find?_cons_of_pos _ hqc] at h
      cases h
      rw [filter_cons_of_head hqc]
      simp [replaceFirstById, List.filter, hqf]
    | false =>
      rw [List.find?_cons_of_neg _ (by simp [hqc])] at h
      have hqmem : q ∈ rs := List.mem_of_find?_eq_some h
      have hne : r.id ≠ q.id := by
        intro he
        exact (List.nodup_cons.mp hN).1 (he ▸ List.mem_map_of_mem Run.id hqmem)
      have hb : (r.id == q.id) = false := by simp [hne]
      simp only [replaceFirstById, hb, Bool.false_eq_true, if_false]
      rw [List.filter_cons_of_neg (by simp [hqc]),
        List.filter_cons_of_neg (by simp [hqc])]
      exact ih (List.nodup_cons.mp hN).2 h

theorem claim_next_job_of_find_some {s : Store} {q : Run} (now : Nat)
    (hN : (s.map Run.id).Nodup) (h : s.find? isQueuedCanonical = some q) :
    claim_next_job now s
      = (some (setRunning q now), replaceFirstById s q.id (setRunning q now)) := by
  simp only [claim_next_job, h, find?_id_of_find?_qc hN h]
  rfl

theorem claimJobs_ids : ∀ (n now : Nat) (s : Store),
    (s.map Run.id).Nodup →
    (claimJobs n now s).1 = (queuedCanonicalIds s).take n
  | 0, _, s, _ => by simp [claimJobs]
  | n + 1, now, s, hN => by
    cases hq : s.find? isQueuedCanonical with
    | none =>
      have hc := claim_next_job_of_find_none now hq
      simp only [claimJobs, hc]
      rw [queuedCanonicalIds_of_find_none hq]
      rfl
    | some q =>
      have hc := claim_next_job_of_find_some now hN hq
      have hN' : ((replaceFirstById s q.id (setRunning q now)).map Run.id).Nodup := by
        rw [map_id_replaceFirstById s q.id (setRunning q now) rfl]
        exact hN
      have hrec := claimJobs_ids n (now + 1)
        (replaceFirstById s q.id (setRunning q now)) hN'
      have hqf : isQueuedCanonical (setRunning q now) = false := by
        simp [isQueuedCanonical, setRunning]
      have htail : queuedCanonicalIds (replaceFirstById s q.id (setRunning q now))
          = (queuedCanonicalIds s).tail := by
        unfold queuedCanonicalIds
        rw [@filter_replaceFirstById s q (setRunning q now) hN hq rfl hqf]
        obtain ⟨t, ht⟩ := find?_qc_filter hq
        rw [ht]
        rfl
      obtain ⟨t, ht⟩ := find?_qc_filter hq
      have hhead : queuedCanonicalIds s = q.id :: t.map Run.id := by
        unfold queuedCanonicalIds
        rw [ht]
        rfl
      simp only [claimJobs, hc]
      rw [hrec, htail, hhead]
      show (setRunning q now).id :: _ = _
      rw [show (setRunning q now).id = q.id from rfl]
      rfl

/-- C1: with unique run ids, `n` concurrent (linearised atomic) calls of
`claim_next_job` on a store with `M` queued canonical jobs claim exactly
`min n M` runs; the claimed ids are pairwise distinct, each was a queued
canonical job of the initial store, and when `M ≤ n` every queued canonical
job is claimed by exactly one caller. -/
theorem C1_claim_idempotency (s : Store) (now n : Nat)
    (hN : (s.map Run.id).Nodup) :
    (claimJobs n now s).1.length = min n (queuedCanonicalIds s).length ∧
    (claimJobs n now s).1.Nodup ∧
    (∀ i ∈ (claimJobs n now s).1, i ∈ queuedCanonicalIds s) ∧
    ((queuedCanonicalIds s).length ≤ n →
      ∀ i ∈ queuedCanonicalIds s, (claimJobs n now s).1.count i = 1) := by
  have hids := claimJobs_ids n now s hN
  have hqN : (queuedCanonicalIds s).Nodup := by
    unfold queuedCanonicalIds
    exact ((List.filter_sublist s :
      (s.filter isQueuedCanonical).Sublist s).map Run.id).nodup hN
  rw [hids]
  refine ⟨List.length_take _ _, ?_, ?_, ?_⟩
  · exact ((queuedCanonicalIds s).take_sublist n).nodup hqN
  · exact fun i hi => List.mem_of_mem_take hi
  · intro hlen i hi
    rw [List.take_of_length_le hlen]
    exact List.count_eq_one_of_mem hqN hi

/-- Queued canonical job. -/
def queuedRunA : Run :=
  { id := "q1", createdAt := 1, status := JobStatus.queued, progress := 0,
    startedAt := none, completedAt := none, errorMessage := none,
    nbInsights := none, nbClusters := none, isCachedResult := false,
    sourceRunId := none, csvPath := none, jsonPath := none, notes := none }

/-- Queued but cached run: never enters the claim pool. -/
def queuedCachedRun : Run :=
  { id := "qc", createdAt := 2, status := JobStatus.queued, progress := 0,
    startedAt := none, completedAt := none, errorMessage := none,
    nbInsights := none, nbClusters := none, isCachedResult := true,
    sourceRunId := some ("q1"), csvPath := none, jsonPath := none,
    notes := none }

/-- Second queued canonical job. -/
def queuedRunB : Run :=
  { id := "q2", createdAt := 3, status := JobStatus.queued, progress := 0,
    startedAt := none, completedAt := none, errorMessage := none,
    nbInsights := none, nbClusters := none, isCachedResult := false,
    sourceRunId := none, csvPath := none, jsonPath := none, notes := none }

/-- A queue with two claimable jobs, one cached queued run and one
completed run. -/
def claimDemoStore : Store := [queuedRunA, queuedCachedRun, queuedRunB, doneRun]

/-- Witness for C1: three callers on a queue with two claimable jobs. -/
theorem C1_claim_idempotency_witness :
    (claimDemoStore.map Run.id).Nodup ∧
    ((claimJobs 3 100 claimDemoStore).1.length
        = min 3 (queuedCanonicalIds claimDemoStore).length ∧
      (claimJobs 3 100 claimDemoStore).1.Nodup ∧
      (∀ i ∈ (claimJobs 3 100 claimDemoStore).1,
        i ∈ queuedCanonicalIds claimDemoStore) ∧
      ((queuedCanonicalIds claimDemoStore).length ≤ 3 →
        ∀ i ∈ queuedCanonicalIds claimDemoStore,
          (claimJobs 3 100 claimDemoStore).1.count i = 1)) :=
  ⟨by decide, C1_claim_idempotency claimDemoStore 100 3 (by decide)⟩

/-! ## Claim C2: cache key determinism and sensitivity -/

theorem hexVal_hexDigitChar : ∀ n < 16, hexVal (hexDigitChar n) = some n := by
  decide

theorem char_isValid (c : Char) :
    c.toNat < 55296 ∨ (57343 < c.toNat ∧ c.toNat < 1114112) := c.valid

theorem jsonEscape_cons (c : Char) (s : List Char) :
    jsonEscape (c :: s) = jsonEscChar c ++ jsonEscape s := by
  simp [jsonEscape]


theorem parseHex4_hexDigitChar (v : Nat) (hv : v < 65536) :
    parseHex4 (hexDigitChar (v / 4096 % 16)) (hexDigitChar (v / 256 % 16))
      (hexDigitChar (v / 16 % 16)) (hexDigitChar (v % 16)) = some v := by
  have e1 := hexVal_hexDigitChar (v / 4096 % 16) (Nat.mod_lt _ (by omega))
  have e2 := hexVal_hexDigitChar (v / 256 % 16) (Nat.mod_lt _ (by omega))
  have e3 := hexVal_hexDigitChar (v / 16 % 16) (Nat.mod_lt _ (by omega))
  have e4 := hexVal_hexDigitChar (v % 16) (Nat.mod_lt _ (by omega))
  simp only [parseHex4, e1, e2, e3, e4]
  rw [show ((v / 4096 % 16 * 16 + v / 256 % 16) * 16 + v / 16 % 16) * 16
    + v % 16 = v from by omega]

theorem jsonUnescape_plain (c : Char) (h : ¬ c = '\\') (rest : List Char) :
    jsonUnescape (c :: rest) = (jsonUnescape rest).map (fun t => c :: t) := by
  rw [jsonUnescape]
  rw [if_neg h]

theorem jsonUnescape_short (e ch : Char) (he : ¬ e = 'u')
    (h : jsonShortUnescChar e = some ch) (rest : List Char) :
    jsonUnescape ('\\' :: e :: rest)
      = (jsonUnescape rest).map (fun t => ch :: t) := by
  rw [jsonUnescape, if_pos rfl, jsonUnescapeEsc, if_neg he, h]

theorem jsonUnescape_hex4 (v : Nat) (hv : v < 65536)
    (hns : ¬(55296 ≤ v ∧ v < 56320)) (rest : List Char) :
    jsonUnescape ('\\' :: 'u' :: (toHex4 v ++ rest))
      = (jsonUnescape rest).map (fun t => Char.ofNat v :: t) := by
  have htex : toHex4 v ++ rest
      = hexDigitChar (v / 4096 % 16) :: hexDigitChar (v / 256 % 16)
        :: hexDigitChar (v / 16 % 16) :: hexDigitChar (v % 16) :: rest := rfl
  rw [htex, jsonUnescape, if_pos rfl, jsonUnescapeEsc, if_pos rfl,
    jsonUnescapeHex]
  simp only [parseHex4_hexDigitChar v hv]
  rw [if_neg hns]

theorem jsonUnescape_surrogate (v : Nat) (hv1 : 65536 ≤ v)
    (hv2 : v < 1114112) (rest : List Char) :
    jsonUnescape (('\\' :: 'u' :: toHex4 (55296 + (v - 65536) / 1024)) ++
        (('\\' :: 'u' :: toHex4 (56320 + (v - 65536) % 1024)) ++ rest))
      = (jsonUnescape rest).map (fun t => Char.ofNat v :: t) := by
  have hdiv : (v - 65536) / 1024 < 1024 := by omega
  have hmod : (v - 65536) % 1024 < 1024 := Nat.mod_lt _ (by omega)
  have hflat : ('\\' :: 'u' :: toHex4 (55296 + (v - 65536) / 1024)) ++
        (('\\' :: 'u' :: toHex4 (56320 + (v - 65536) % 1024)) ++ rest)
      = '\\' :: 'u'
        :: hexDigitChar ((55296 + (v - 65536) / 1024) / 4096 % 16)
        :: hexDigitChar ((55296 + (v - 65536) / 1024) / 256 % 16)
        :: hexDigitChar ((55296 + (v - 65536) / 1024) / 16 % 16)
        :: hexDigitChar ((55296 + (v - 65536) / 1024) % 16)
        :: '\\' :: 'u'
        :: hexDigitChar ((56320 + (v - 65536) % 1024) / 4096 % 16)
        :: hexDigitChar ((56320 + (v - 65536) % 1024) / 256 % 16)
        :: hexDigitChar ((56320 + (v - 65536) % 1024) / 16 % 16)
        :: hexDigitChar ((56320 + (v - 65536) % 1024) % 16)
        :: rest := rfl
  rw [hflat, jsonUnescape, if_pos rfl, jsonUnescapeEsc, if_pos rfl,
    jsonUnescapeHex]
  simp only [parseHex4_hexDigitChar (55296 + (v - 65536) / 1024) (by omega)]
  rw [if_pos (show 55296 ≤ 55296 + (v - 65536) / 1024 ∧
    55296 + (v - 65536) / 1024 < 56320 by omega)]
  rw [jsonUnescapeLow, if_pos ⟨rfl, rfl⟩]
  simp only [parseHex4_hexDigitChar (56320 + (v - 65536) % 1024) (by omega)]
  rw [if_pos (show 56320 ≤ 56320 + (v - 65536) % 1024 ∧
    56320 + (v - 65536) % 1024 < 57344 by omega)]
  rw [show 65536 + (55296 + (v - 65536) / 1024 - 55296) * 1024
      + (56320 + (v - 65536) % 1024 - 56320) = v from by omega]

theorem jsonUnescape_jsonEscape : ∀ s : List Char,
    jsonUnescape (jsonEscape s) = some s
  | [] => by
    rw [show jsonEscape [] = [] from rfl, jsonUnescape]
  | c :: s => by
    have ih := jsonUnescape_jsonEscape s
    rw [jsonEscape_cons]
    by_cases h1 : c = '\\'
    · subst h1
      rw [show jsonEscChar '\\' ++ jsonEscape s = '\\' :: '\\' :: jsonEscape s
          from by rw [show jsonEscChar '\\' = ['\\', '\\'] from by decide]; rfl]
      rw [jsonUnescape_short '\\' '\\' (by decide) (by decide), ih]
      rfl
    by_cases h2 : c = '"'
    · subst h2
      rw [show jsonEscChar '"' ++ jsonEscape s = '\\' :: '"' :: jsonEscape s
          from by rw [show jsonEscChar '"' = ['\\', '"'] from by decide]; rfl]
      rw [jsonUnescape_short '"' '"' (by decide) (by decide), ih]
      rfl
    by_cases h3 : c = '\x08'
    · subst h3
      rw [show jsonEscChar '\x08' ++ jsonEscape s = '\\' :: 'b' :: jsonEscape s
          from by rw [show jsonEscChar '\x08' = ['\\', 'b'] from by decide]; rfl]
      rw [jsonUnescape_short 'b' '\x08' (by decide) (by decide), ih]
      rfl
    by_cases h4 : c = '\x0c'
    · subst h4
      rw [show jsonEscChar '\x0c' ++ jsonEscape s = '\\' :: 'f' :: jsonEscape s
          from by rw [show jsonEscChar '\x0c' = ['\\', 'f'] from by decide]; rfl]
      rw [jsonUnescape_short 'f' '\x0c' (by decide) (by decide), ih]
      rfl
    by_cases h5 : c = '\n'
    · subst h5
      rw [show jsonEscChar '\n' ++ jsonEscape s = '\\' :: 'n' :: jsonEscape s
          from by rw [show jsonEscChar '\n' = ['\\', 'n'] from by decide]; rfl]
      rw [jsonUnescape_short 'n' '\n' (by decide) (by decide), ih]
      rfl
    by_cases h6 : c = '\r'
    · subst h6
      rw [show jsonEscChar '\r' ++ jsonEscape s = '\\' :: 'r' :: jsonEscape s
          from by rw [show jsonEscChar '\r' = ['\\', 'r'] from by decide]; rfl]
      rw [jsonUnescape_short 'r' '\r' (by decide) (by decide), ih]
      rfl
    by_cases h7 : c = '\t'
    · subst h7
      rw [show jsonEscChar '\t' ++ jsonEscape s = '\\' :: 't' :: jsonEscape s
          from by rw [show jsonEscChar '\t' = ['\\', 't'] from by decide]; rfl]
      rw [jsonUnescape_short 't' '\t' (by decide) (by decide), ih]
      rfl
    by_cases h8 : c.toNat < 32 ∨ 126 < c.toNat
    · by_cases h9 : c.toNat < 65536
      · have hesc : jsonEscChar c = '\\' :: 'u' :: toHex4 c.toNat := by
          simp only [jsonEscChar, if_neg h1, if_neg h2, if_neg h3, if_neg h4,
            if_neg h5, if_neg h6, if_neg h7, if_pos h8, if_pos h9]
        rw [hesc, List.cons_append, List.cons_append,
          jsonUnescape_hex4 c.toNat h9
            (by rcases char_isValid c with h | h <;> omega), ih]
        simp
      · have hesc : jsonEscChar c
            = ('\\' :: 'u' :: toHex4 (55296 + (c.toNat - 65536) / 1024)) ++
              ('\\' :: 'u' :: toHex4 (56320 + (c.toNat - 65536) % 1024)) := by
          simp only [jsonEscChar, if_neg h1, if_neg h2, if_neg h3, if_neg h4,
            if_neg h5, if_neg h6, if_neg h7, if_pos h8, if_neg h9]
        have hlt : c.toNat < 1114112 := by
          rcases char_isValid c with h | h <;> omega
        rw [hesc, List.append_assoc,
          jsonUnescape_surrogate c.toNat (by omega) hlt, ih]
        simp
    · have hesc : jsonEscChar c = [c] := by
        simp only [jsonEscChar, if_neg h1, if_neg h2, if_neg h3, if_neg h4,
          if_neg h5, if_neg h6, if_neg h7, if_neg h8]
      rw [hesc, List.cons_append, jsonUnescape_plain c h1, List.nil_append, ih]
      rfl

theorem jsonEscape_injective {s1 s2 : List Char}
    (h : jsonEscape s1 = jsonEscape s2) : s1 = s2 := by
  have h1 := jsonUnescape_jsonEscape s1
  have h2 := jsonUnescape_jsonEscape s2
  rw [h] at h1
  exact Option.some.inj (h1.symm.trans h2)

theorem digitChar_inj : ∀ a < 10, ∀ b < 10, digitChar a = digitChar b → a = b := by
  decide

theorem digitChar_ne_n : ∀ a < 10, digitChar a ≠ 'n' := by decide

theorem map_digitChar_inj : ∀ (l1 l2 : List Nat), (∀ x ∈ l1, x < 10) →
    (∀ x ∈ l2, x < 10) → l1.map digitChar = l2.map digitChar → l1 = l2
  | [], [], _, _, _ => rfl
  | [], _ :: _, _, _, h => by simp at h
  | _ :: _, [], _, _, h => by simp at h
  | a :: l1, b :: l2, hb1, hb2, h => by
    rw [List.map_cons, List.map_cons] at h
    obtain ⟨hh, ht⟩ := List.cons.injEq _ _ _ _ ▸ h
    rw [digitChar_inj a (hb1 a (List.mem_cons_self _ _))
        b (hb2 b (List.mem_cons_self _ _)) hh,
      map_digitChar_inj l1 l2 (fun x hx => hb1 x (List.mem_cons_of_mem _ hx))
        (fun x hx => hb2 x (List.mem_cons_of_mem _ hx)) ht]

theorem natDecimal_digits_bound (n : Nat) :
    ∀ x ∈ (Nat.digits 10 n).reverse, x < 10 := by
  intro x hx
  exact Nat.digits_lt_base (by norm_num) (List.mem_reverse.mp hx)

theorem natDecimal_inj (a b : Nat) (h : natDecimal a = natDecimal b) :
    a = b := by
  unfold natDecimal at h
  by_cases ha : a = 0 <;> by_cases hb : b = 0
  · omega
  · rw [if_pos ha, if_neg hb] at h
    have hlen : (1 : Nat) = ((Nat.digits 10 b).reverse.map digitChar).length := by
      rw [← h]; rfl
    rw [List.length_map, List.length_reverse] at hlen
    obtain ⟨d, hd⟩ := List.length_eq_one.mp hlen.symm
    rw [hd] at h
    have hdval : d < 10 := Nat.digits_lt_base (by norm_num) (hd ▸ List.mem_cons_self d [])
    have : ('0' : Char) = digitChar d := by
      have := h
      simpa using this
    have hd0 : d = 0 := (digitChar_inj 0 (by norm_num) d hdval (by simpa using this)).symm
    have hb' := Nat.ofDigits_digits 10 b
    rw [hd, hd0] at hb'
    exact absurd (by simpa using hb'.symm) hb
  · rw [if_neg ha, if_pos hb] at h
    have hlen : ((Nat.digits 10 a).reverse.map digitChar).length = 1 := by
      rw [h]; rfl
    rw [List.length_map, List.length_reverse] at hlen
    obtain ⟨d, hd⟩ := List.length_eq_one.mp hlen
    rw [hd] at h
    have hdval : d < 10 := Nat.digits_lt_base (by norm_num) (hd ▸ List.mem_cons_self d [])
    have : digitChar d = '0' := by simpa using h
    have hd0 : d = 0 := digitChar_inj d hdval 0 (by norm_num) this
    have ha' := Nat.ofDigits_digits 10 a
    rw [hd, hd0] at ha'
    exact absurd (by simpa using ha'.symm) ha
  · rw [if_neg ha, if_neg hb] at h
    have := map_digitChar_inj _ _ (natDecimal_digits_bound a)
      (natDecimal_digits_bound b) h
    have hd : Nat.digits 10 a = Nat.digits 10 b :=
      List.reverse_injective this
    calc a = Nat.ofDigits 10 (Nat.digits 10 a) := (Nat.ofDigits_digits 10 a).symm
    _ = Nat.ofDigits 10 (Nat.digits 10 b) := by rw [hd]
    _ = b := Nat.ofDigits_digits 10 b

theorem natDecimal_ne_null (n : Nat) : natDecimal n ≠ "null".data := by
  intro h
  have hn : 'n' ∈ natDecimal n := by
    rw [h]
    decide
  unfold natDecimal at hn
  by_cases h0 : n = 0
  · rw [if_pos h0] at hn
    simp at hn
  · rw [if_neg h0] at hn
    obtain ⟨x, hx, hxn⟩ := List.mem_map.mp hn
    exact digitChar_ne_n x (natDecimal_digits_bound n x hx) hxn

theorem renderMaxInsights_inj : ∀ m1 m2 : Option Nat,
    renderMaxInsights m1 = renderMaxInsights m2 → m1 = m2
  | none, none, _ => rfl
  | none, some n, h => absurd h.symm (natDecimal_ne_null n)
  | some n, none, h => absurd h (natDecimal_ne_null n)
  | some n1, some n2, h => by rw [natDecimal_inj n1 n2 h]

theorem isoDate_inj (d1 d2 : SigDate)
    (h1y : d1.year < 10000) (h2y : d2.year < 10000)
    (h1m : d1.month < 100) (h2m : d2.month < 100)
    (h1d : d1.day < 100) (h2d : d2.day < 100)
    (h : isoDate d1 = isoDate d2) : d1 = d2 := by
  obtain ⟨y1, m1, dd1⟩ := d1
  obtain ⟨y2, m2, dd2⟩ := d2
  have hform : ∀ y m dd : Nat, isoDate ⟨y, m, dd⟩
      = [digitChar (y / 1000 % 10), digitChar (y / 100 % 10),
         digitChar (y / 10 % 10), digitChar (y % 10), '-',
         digitChar (m / 10 % 10), digitChar (m % 10), '-',
         digitChar (dd / 10 % 10), digitChar (dd % 10)] := fun y m dd => rfl
  rw [hform, hform] at h
  simp only [List.cons.injEq, and_true] at h
  obtain ⟨e1, e2, e3, e4, _, e5, e6, _, e7, e8⟩ := h
  simp only at h1y h2y h1m h2m h1d h2d ⊢
  have q1 := digitChar_inj _ (Nat.mod_lt _ (by omega)) _ (Nat.mod_lt _ (by omega)) e1
  have q2 := digitChar_inj _ (Nat.mod_lt _ (by omega)) _ (Nat.mod_lt _ (by omega)) e2
  have q3 := digitChar_inj _ (Nat.mod_lt _ (by omega)) _ (Nat.mod_lt _ (by omega)) e3
  have q4 := digitChar_inj _ (Nat.mod_lt _ (by omega)) _ (Nat.mod_lt _ (by omega)) e4
  have q5 := digitChar_inj _ (Nat.mod_lt _ (by omega)) _ (Nat.mod_lt _ (by omega)) e5
  have q6 := digitChar_inj _ (Nat.mod_lt _ (by omega)) _ (Nat.mod_lt _ (by omega)) e6
  have q7 := digitChar_inj _ (Nat.mod_lt _ (by omega)) _ (Nat.mod_lt _ (by omega)) e7
  have q8 := digitChar_inj _ (Nat.mod_lt _ (by omega)) _ (Nat.mod_lt _ (by omega)) e8
  have hy : y1 = y2 := by omega
  have hm : m1 = m2 := by omega
  have hd : dd1 = dd2 := by omega
  simp [hy, hm, hd]

/-- C2: the cache key of a scan request is computed from exactly
`(mode, run_mode, max_insights, input_pattern, UTC date)` — two requests
equal on these five fields get the same key regardless of requester
identity and `config_name` — and the serialised signature that the key
hashes is injective in each of the five fields separately (the date within
the ranges `datetime.date` guarantees), so changing any one of them changes
the signature underlying the collision classes. -/
theorem C2_cache_key_determinism :
    (∀ (r1 r2 : ScanRequest) (u1 u2 : String) (d : SigDate),
      r1.mode = r2.mode → r1.run_mode = r2.run_mode →
      r1.max_insights = r2.max_insights → r1.input_pattern = r2.input_pattern →
      create_scan_cache_key r1 u1 d = create_scan_cache_key r2 u2 d) ∧
    (∀ (m m' rm : List Char) (mi : Option Nat) (ip : List Char) (d : SigDate),
      m ≠ m' → cacheSignature m rm mi ip d ≠ cacheSignature m' rm mi ip d) ∧
    (∀ (m rm rm' : List Char) (mi : Option Nat) (ip : List Char) (d : SigDate),
      rm ≠ rm' → cacheSignature m rm mi ip d ≠ cacheSignature m rm' mi ip d) ∧
    (∀ (m rm : List Char) (mi mi' : Option Nat) (ip : List Char) (d : SigDate),
      mi ≠ mi' → cacheSignature m rm mi ip d ≠ cacheSignature m rm mi' ip d) ∧
    (∀ (m rm : List Char) (mi : Option Nat) (ip ip' : List Char) (d : SigDate),
      ip ≠ ip' → cacheSignature m rm mi ip d ≠ cacheSignature m rm mi ip' d) ∧
    (∀ (m rm : List Char) (mi : Option Nat) (ip : List Char) (d d' : SigDate),
      d.year < 10000 → d'.year < 10000 → d.month < 100 → d'.month < 100 →
      d.day < 100 → d'.day < 100 → d ≠ d' →
      cacheSignature m rm mi ip d ≠ cacheSignature m rm mi ip d') := by
  refine ⟨?_, ?_, ?_, ?_, ?_, ?_⟩
  · intro r1 r2 u1 u2 d h1 h2 h3 h4
    simp only [create_scan_cache_key, build_cache_key, h1, h2, h3, h4]
  · intro m m' rm mi ip d hne h
    apply hne
    simp only [cacheSignature, List.append_assoc] at h
    replace h := List.append_cancel_left h
    replace h := List.append_cancel_left h
    replace h := List.append_cancel_left h
    replace h := List.append_cancel_left h
    replace h := List.append_cancel_left h
    replace h := List.append_cancel_left h
    replace h := List.append_cancel_left h
    replace h := List.append_cancel_right h
    exact jsonEscape_injective h
  · intro m rm rm' mi ip d hne h
    apply hne
    simp only [cacheSignature, List.append_assoc] at h
    replace h := List.append_cancel_left h
    replace h := List.append_cancel_left h
    replace h := List.append_cancel_left h
    replace h := List.append_cancel_left h
    replace h := List.append_cancel_left h
    replace h := List.append_cancel_left h
    replace h := List.append_cancel_left h
    replace h := List.append_cancel_left h
    replace h := List.append_cancel_left h
    replace h := List.append_cancel_right h
    exact jsonEscape_injective h
  · intro m rm mi mi' ip d hne h
    apply hne
    simp only [cacheSignature, List.append_assoc] at h
    replace h := List.append_cancel_left h
    replace h := List.append_cancel_left h
    replace h := List.append_cancel_left h
    replace h := List.append_cancel_left h
    replace h := List.append_cancel_left h
    replace h := List.append_cancel_right h
    exact renderMaxInsights_inj mi mi' h
  · intro m rm mi ip ip' d hne h
    apply hne
    simp only [cacheSignature, List.append_assoc] at h
    replace h := List.append_cancel_left h
    replace h := List.append_cancel_left h
    replace h := List.append_cancel_left h
    replace h := List.append_cancel_right h
    exact jsonEscape_injective h
  · intro m rm mi ip d d' hy hy' hm hm' hd hd' hne h
    apply hne
    simp only [cacheSignature, List.append_assoc] at h
    replace h := List.append_cancel_left h
    replace h := List.append_cancel_right h
    exact isoDate_inj d d' hy hy' hm hm' hd hd' (jsonEscape_injective h)

/-- A request with a cosmetic label. -/
def scanReqA : ScanRequest :=
  { config_name := some ("morning scan"), mode := "deep",
    max_insights := some 20, input_pattern := "data/raw/posts_*.json",
    run_mode := "discover" }

/-- The same scan configuration from another user, without the label. -/
def scanReqB : ScanRequest :=
  { config_name := none, mode := "deep", max_insights := some 20,
    input_pattern := "data/raw/posts_*.json", run_mode := "discover" }

/-- Witness for C2: identical configurations from two different users (and
different labels) get the same cache key; changing any one of the five
signature fields at concrete values is covered by the theorem's clauses. -/
theorem C2_cache_key_determinism_witness :
    (scanReqA.mode = scanReqB.mode ∧ scanReqA.run_mode = scanReqB.run_mode ∧
      scanReqA.max_insights = scanReqB.max_insights ∧
      scanReqA.input_pattern = scanReqB.input_pattern ∧
      create_scan_cache_key scanReqA ("alice") ⟨2024, 12, 6⟩
        = create_scan_cache_key scanReqB ("bob") ⟨2024, 12, 6⟩) ∧
    ("light".data ≠ "deep".data ∧
      cacheSignature ("light".data) ("discover".data) (some 20)
          ("data/raw/posts_*.json".data) ⟨2024, 12, 6⟩
        ≠ cacheSignature ("deep".data) ("discover".data) (some 20)
          ("data/raw/posts_*.json".data) ⟨2024, 12, 6⟩) ∧
    ("discover".data ≠ "track".data ∧
      cacheSignature ("deep".data) ("discover".data) (some 20)
          ("data/raw/posts_*.json".data) ⟨2024, 12, 6⟩
        ≠ cacheSignature ("deep".data) ("track".data) (some 20)
          ("data/raw/posts_*.json".data) ⟨2024, 12, 6⟩) ∧
    ((some 20 : Option Nat) ≠ none ∧
      cacheSignature ("deep".data) ("discover".data) (some 20)
          ("data/raw/posts_*.json".data) ⟨2024, 12, 6⟩
        ≠ cacheSignature ("deep".data) ("discover".data) none
          ("data/raw/posts_*.json".data) ⟨2024, 12, 6⟩) ∧
    ("data/raw/posts_*.json".data ≠ "data/other/*.json".data ∧
      cacheSignature ("deep".data) ("discover".data) (some 20)
          ("data/raw/posts_*.json".data) ⟨2024, 12, 6⟩
        ≠ cacheSignature ("deep".data) ("discover".data) (some 20)
          ("data/other/*.json".data) ⟨2024, 12, 6⟩) ∧
    ((⟨2024, 12, 6⟩ : SigDate) ≠ ⟨2024, 12, 7⟩ ∧
      cacheSignature ("deep".data) ("discover".data) (some 20)
          ("data/raw/posts_*.json".data) ⟨2024, 12, 6⟩
        ≠ cacheSignature ("deep".data) ("discover".data) (some 20)
          ("data/raw/posts_*.json".data) ⟨2024, 12, 7⟩) :=
  ⟨⟨rfl, rfl, rfl, rfl,
    C2_cache_key_determinism.1 scanReqA scanReqB ("alice") ("bob")
      ⟨2024, 12, 6⟩ rfl rfl rfl rfl⟩,
   ⟨by decide, C2_cache_key_determinism.2.1 _ _ _ _ _ _ (by decide)⟩,
   ⟨by decide, C2_cache_key_determinism.2.2.1 _ _ _ _ _ _ (by decide)⟩,
   ⟨by decide, C2_cache_key_determinism.2.2.2.1 _ _ _ _ _ _ (by decide)⟩,
   ⟨by decide, C2_cache_key_determinism.2.2.2.2.1 _ _ _ _ _ _ (by decide)⟩,
   ⟨by decide, C2_cache_key_determinism.2.2.2.2.2 _ _ _ _ _ _
      (by decide) (by decide) (by decide) (by decide) (by decide) (by decide)
      (by decide)⟩⟩
